import Mathlib

/-!
Verification development for the pdf4ofd repository (easyofd).

This file gives a shallow embedding, in Lean 4, of the parts of the
Python source that the checked claims are about:

* draw/draw_pdf.py      : DrawPDF.cmp_offset, DrawPDF.gen_empty_pdf,
                          DrawPDF.call (the draw_pdf body itself is not
                          present under src/, only its caller; where needed
                          it is modelled from the spec, see the marked
                          definitions below);
* draw/ofdtemplate.py   : CurId, the template assembly machinery
                          (modify / gen_id / correlate_res_uuid) and the
                          concrete template skeletons;
* draw/draw_ofd.py      : OFDWrite, image-list path;
* parser_ofd/file_content_parser.py : ContentFileParser;
* parser_ofd/file_parser_base.py    : recursion_ext;
* parser_ofd/ofd_parser.py          : the template-page merge fragment of
                          OFDParser.parser;
* parser_ofd/path_parser.py         : PathParser (posix branch).

Numeric values are idealized as rationals (the Python code computes with
IEEE floats; every claim checked here is about structural behaviour -
list lengths, which field is written, which factor is applied - not about
rounding, and Python round-trips float-to-repr-to-float losslessly).
Python exceptions are modelled by Option/Except: a `none` result stands
for an uncaught exception escaping the modelled code.
-/

/-! ## Python string / number primitives

Models of the built-ins the embedded code uses: `str.split(sep)` for a
one-character separator, `float(...)` and `int(...)` on decimal literal
strings (exponents, inf/nan, underscores and surrounding whitespace are
never produced by this repository and are not modelled). -/

/-- Model of Python `s.split(sep)` for a single-character separator:
empty input yields `[""]`, adjacent separators yield empty fields. -/
def pySplitAux (sep : Char) : List Char → List Char → List String
  | [], cur => [String.mk cur.reverse]
  | c :: cs, cur =>
    if c = sep then String.mk cur.reverse :: pySplitAux sep cs []
    else pySplitAux sep cs (c :: cur)

/-- Python `s.split(sep)` (single-character separator). -/
def pySplit (sep : Char) (s : String) : List String :=
  pySplitAux sep s.data []

/-- Numeric value of a decimal digit character. -/
def digitVal (c : Char) : ℚ := (c.toNat - 48 : ℕ)

/-- Value of a list of decimal digit characters read as an integer. -/
def digitsVal (cs : List Char) : ℚ :=
  cs.foldl (fun a c => a * 10 + digitVal c) 0

/-- Model of Python `float(s)` on plain decimal literals:
optional sign, then digits with an optional single decimal point;
`none` models a ValueError. -/
def pyFloat (s : String) : Option ℚ :=
  let (sgn, cs) : ℚ × List Char :=
    match s.data with
    | '+' :: r => (1, r)
    | '-' :: r => (-1, r)
    | r => (1, r)
  let intPart := cs.takeWhile Char.isDigit
  let rest := cs.dropWhile Char.isDigit
  match rest with
  | [] => if intPart.isEmpty then none else some (sgn * digitsVal intPart)
  | '.' :: frac =>
    if frac.all Char.isDigit ∧ ¬(intPart.isEmpty ∧ frac.isEmpty) then
      some (sgn * (digitsVal intPart + digitsVal frac / 10 ^ frac.length))
    else none
  | _ => none

/-- Model of Python `int(s)`: optional sign then decimal digits only. -/
def pyInt (s : String) : Option ℤ :=
  let (sgn, cs) : ℤ × List Char :=
    match s.data with
    | '+' :: r => (1, r)
    | '-' :: r => (-1, r)
    | r => (1, r)
  if cs.isEmpty ∨ ¬ cs.all Char.isDigit then none
  else some (sgn * (cs.foldl (fun a c => a * 10 + (c.toNat - 48 : ℕ)) (0 : ℕ) : ℕ))

/-- Model of Python `float(s or 0)`: the empty string is falsy and yields 0. -/
def pyFloatOr0 (s : String) : Option ℚ :=
  if s = "" then some 0 else pyFloat s

/-! ## DrawPDF.cmp_offset (draw/draw_pdf.py lines 118-206)

The per-character offset computation for one axis.  `CTMInfo` models the
dictionary built in `draw_chars` (either all four keys or empty, the
empty dict being `none` here); `TextAxis` models the `dire` argument. -/

/-- The four CTM components `cmp_offset` reads (resizeX/resizeY/moveX/moveY). -/
structure CTMInfo where
  resizeX : ℚ
  resizeY : ℚ
  moveX : ℚ
  moveY : ℚ
deriving DecidableEq

/-- The `dire` argument of `cmp_offset`. -/
inductive TextAxis where
  | X
  | Y
deriving DecidableEq

/-- The `resize` factor selected at the top of `cmp_offset`:
the CTM scale for the given axis, defaulting to 1 with no CTM. -/
def resizeOf (ctm : Option CTMInfo) (dire : TextAxis) : ℚ :=
  match ctm, dire with
  | some c, .X => c.resizeX
  | some c, .Y => c.resizeY
  | none, _ => 1

/-- The `move` offset selected at the top of `cmp_offset`:
the CTM translation for the given axis, defaulting to 0 with no CTM. -/
def moveOf (ctm : Option CTMInfo) (dire : TextAxis) : ℚ :=
  match ctm, dire with
  | some c, .X => c.moveX
  | some c, .Y => c.moveY
  | none, _ => 0

/-- The `for _ in range(repeat): char_pos += step; pos_list.append(char_pos)`
loop of the `g` rule: returns the appended entries and the final `char_pos`. -/
def gRepeat (cp step : ℚ) : ℕ → List ℚ × ℚ
  | 0 => ([], cp)
  | m + 1 =>
    let cp' := cp + step
    let (l, cf) := gRepeat cp' step m
    (cp' :: l, cf)

/-- The token loop of `cmp_offset` for a rule containing a `g` token:
walks the remaining tokens carrying the absolute index `idx`, the index
`g_no` of the most recent `g` token seen (if any) and the running
`char_pos`; returns the list entries appended after the initial one.
`none` models an uncaught ValueError / IndexError inside the loop. -/
def gLoop (resize : ℚ) (os : List String) (idx : ℕ) (gNo : Option ℕ) (cp : ℚ) :
    Option (List ℚ) :=
  match os with
  | [] => some []
  | v :: rest =>
    if v = "g" then
      match (rest.get? 0).bind pyInt, (rest.get? 1).bind pyFloat with
      | some rep, some step =>
        let (entries, cp') := gRepeat cp step rep.toNat
        (gLoop resize rest (idx + 1) (some idx) cp').map (fun t => entries ++ t)
      | _, _ => none
    else
      match gNo with
      | none =>
        match pyFloat v with
        | some x =>
          let cp' := cp + x * resize
          (gLoop resize rest (idx + 1) none cp').map (fun t => cp' :: t)
        | none => none
      | some g =>
        if g + 2 < idx then
          match pyFloat v with
          | some x =>
            let cp' := cp + x * resize
            (gLoop resize rest (idx + 1) (some g) cp').map (fun t => cp' :: t)
          | none => none
        else
          gLoop resize rest (idx + 1) (some g) cp

/-- The token loop of `cmp_offset` for a rule with no `g` token:
each token is a plain advance `char_pos += float(value or 0) * resize`. -/
def plainLoop (resize : ℚ) : List String → ℚ → Option (List ℚ)
  | [], _ => some []
  | v :: rest, cp =>
    match pyFloatOr0 v with
    | some x =>
      let cp' := cp + x * resize
      (plainLoop resize rest cp').map (fun t => cp' :: t)
    | none => none

/-- `DrawPDF.cmp_offset` after the rule string has been split into tokens
(`offsets = DeltaRule.split(" ") if DeltaRule else []`).  `pos` is the
start coordinate (`None` modelled as `none`), `offset` the raw per-run
start-offset string, `text` the run text, `ctm`/`dire` as above.
`none` models an uncaught exception. -/
def cmpOffsetTokens (pos : Option ℚ) (offset : String) (offsets : List String)
    (text : String) (ctm : Option CTMInfo) (dire : TextAxis) : Option (List ℚ) :=
  let resize := resizeOf ctm dire
  let move := moveOf ctm dire
  match pyFloatOr0 offset with
  | none => none
  | some off0 =>
    let cp := pos.getD 0 + (off0 + move) * resize
    if offsets.contains "g" then
      (gLoop resize offsets 0 none cp).map (fun t => cp :: t)
    else if offsets.isEmpty then
      some (text.data.map (fun _ => cp))
    else
      (plainLoop resize offsets cp).map (fun t => cp :: t)

/-- `DrawPDF.cmp_offset`: splits the Delta rule on spaces (an empty rule
string is falsy and yields no tokens) and runs the token interpretation. -/
def cmpOffset (pos : Option ℚ) (offset : String) (DeltaRule : String)
    (text : String) (ctm : Option CTMInfo) (dire : TextAxis) : Option (List ℚ) :=
  cmpOffsetTokens pos offset
    (if DeltaRule = "" then [] else pySplit ' ' DeltaRule) text ctm dire

/-! ## CurId (draw/ofdtemplate.py lines 76-132) -/

/-- The per-session id allocator: counter, one-shot used flag, and the
uuid-to-assigned-id map (`uuid_map`, insertion-ordered like a Python dict). -/
structure CurId where
  id : ℕ
  used : Bool
  uuid_map : List (String × String)
deriving DecidableEq

/-- `CurId.__init__`: counter 1, unused, empty uuid map. -/
def CurId.start : CurId := ⟨1, false, []⟩

/-- Python dict assignment `d[k] = v` on an insertion-ordered pair list:
replace the first binding of `k` in place, else append. -/
def setPair (k v : String) : List (String × String) → List (String × String)
  | [] => [(k, v)]
  | (k', v') :: r => if k' = k then (k, v) :: r else (k', v') :: setPair k v r

/-- `CurId.add_uuid_map`. -/
def CurId.add_uuid_map (s : CurId) (k v : String) : CurId :=
  { s with uuid_map := setPair k v s.uuid_map }

/-- `CurId.get_id`: if the counter was already used, increment then return;
otherwise return the current counter and mark it used. -/
def CurId.get_id (s : CurId) : ℕ × CurId :=
  if s.used then (s.id + 1, ⟨s.id + 1, true, s.uuid_map⟩)
  else (s.id, ⟨s.id, true, s.uuid_map⟩)

/-- `CurId.get_max_id`: the current counter plus one. -/
def CurId.get_max_id (s : CurId) : ℕ := s.id + 1

/-! ## Lemmas about the offset computation -/

/-- The entries appended by a sequence of advances starting from `cp`:
one entry per advance, each the running sum so far. -/
def addsFrom (cp : ℚ) : List ℚ → List ℚ
  | [] => []
  | d :: ds => (cp + d) :: addsFrom (cp + d) ds

theorem scanl_eq_addsFrom (cp : ℚ) (ds : List ℚ) :
    List.scanl (· + ·) cp ds = cp :: addsFrom cp ds := by
  induction ds generalizing cp with
  | nil => simp [addsFrom]
  | cons d ds ih => simp [addsFrom, List.scanl, ih]

theorem addsFrom_length (cp : ℚ) (ds : List ℚ) :
    (addsFrom cp ds).length = ds.length := by
  induction ds generalizing cp with
  | nil => rfl
  | cons d ds ih => simp [addsFrom, ih]

theorem addsFrom_append (cp : ℚ) (ds es : List ℚ) :
    addsFrom cp (ds ++ es) = addsFrom cp ds ++ addsFrom (cp + ds.sum) es := by
  induction ds generalizing cp with
  | nil => simp [addsFrom]
  | cons d ds ih => simp [addsFrom, ih, add_assoc]

theorem gRepeat_eq (cp s : ℚ) (m : ℕ) :
    gRepeat cp s m = (addsFrom cp (List.replicate m s), cp + s * m) := by
  induction m generalizing cp with
  | zero => simp [gRepeat, addsFrom]
  | succ m ih =>
    simp only [gRepeat, ih, List.replicate_succ, addsFrom, Prod.mk.injEq]
    refine ⟨trivial, ?_⟩
    push_cast
    ring

/-- `float(...)` applied to every token of a list, failing if any fails. -/
def pyFloatList : List String → Option (List ℚ)
  | [] => some []
  | v :: r =>
    match pyFloat v, pyFloatList r with
    | some x, some xs => some (x :: xs)
    | _, _ => none

theorem pyFloat_g : pyFloat "g" = none := by decide

theorem pyInt_ne_g {v : String} {n : ℤ} (h : pyInt v = some n) : v ≠ "g" := by
  intro hv
  rw [hv] at h
  simp [pyInt] at h

theorem pyFloat_ne_g {v : String} {x : ℚ} (h : pyFloat v = some x) : v ≠ "g" := by
  intro hv
  rw [hv, pyFloat_g] at h
  exact Option.noConfusion h

/-- Plain-token phase of `gLoop` before any `g` has been seen: each parsed
token advances by its value scaled by `resize`. -/
theorem gLoop_pre (resize : ℚ) (pre : List String) (xs : List ℚ)
    (hp : pyFloatList pre = some xs) (rest : List String) :
    ∀ (idx : ℕ) (cp : ℚ),
      gLoop resize (pre ++ rest) idx none cp =
        (gLoop resize rest (idx + pre.length) none
            (cp + (xs.map (· * resize)).sum)).map
          (fun t => addsFrom cp (xs.map (· * resize)) ++ t) := by
  induction pre generalizing xs with
  | nil =>
    intro idx cp
    simp only [pyFloatList, Option.some.injEq] at hp
    subst hp
    simp [addsFrom]
  | cons v pre ih =>
    intro idx cp
    match hv : pyFloat v, hxs : pyFloatList pre with
    | none, _ =>
      rw [pyFloatList, hv] at hp
      exact Option.noConfusion hp
    | some x, none =>
      rw [pyFloatList, hv, hxs] at hp
      exact Option.noConfusion hp
    | some x, some ys =>
      rw [pyFloatList, hv, hxs, Option.some.injEq] at hp
      subst hp
      have hvg : v ≠ "g" := pyFloat_ne_g hv
      rw [List.cons_append, gLoop, if_neg hvg, hv]
      dsimp only
      rw [ih ys hxs (idx + 1) (cp + x * resize)]
      have hn : idx + 1 + pre.length = idx + (v :: pre).length := by
        simp only [List.length_cons]
        omega
      have hq : cp + x * resize + ((ys.map (· * resize)).sum) =
          cp + (((x :: ys).map (· * resize)).sum) := by
        simp only [List.map_cons, List.sum_cons]
        ring
      rw [hn, hq, Option.map_map]
      congr 1

/-- Plain-token phase of `gLoop` strictly after a `g` triple (all indices
past the `g` index plus two): each parsed token advances by its value
scaled by `resize`. -/
theorem gLoop_post (resize : ℚ) (post : List String) (xs : List ℚ) (g : ℕ)
    (hp : pyFloatList post = some xs) :
    ∀ (idx : ℕ) (cp : ℚ), g + 2 < idx →
      gLoop resize post idx (some g) cp =
        some (addsFrom cp (xs.map (· * resize))) := by
  induction post generalizing xs with
  | nil =>
    intro idx cp _
    simp only [pyFloatList, Option.some.injEq] at hp
    subst hp
    simp [gLoop, addsFrom]
  | cons v post ih =>
    intro idx cp hidx
    match hv : pyFloat v, hxs : pyFloatList post with
    | none, _ =>
      rw [pyFloatList, hv] at hp
      exact Option.noConfusion hp
    | some x, none =>
      rw [pyFloatList, hv, hxs] at hp
      exact Option.noConfusion hp
    | some x, some ys =>
      rw [pyFloatList, hv, hxs, Option.some.injEq] at hp
      subst hp
      have hvg : v ≠ "g" := pyFloat_ne_g hv
      rw [gLoop, if_neg hvg]
      simp only [if_pos hidx, hv]
      rw [ih ys hxs (idx + 1) (cp + x * resize) (by omega)]
      simp [addsFrom]

theorem pyFloatList_not_g {l : List String} {xs : List ℚ}
    (h : pyFloatList l = some xs) : "g" ∉ l := by
  induction l generalizing xs with
  | nil => simp
  | cons v r ih =>
    intro hmem
    rcases List.mem_cons.mp hmem with hv | hr
    · subst hv
      rw [pyFloatList, pyFloat_g] at h
      exact Option.noConfusion h
    · match hv : pyFloat v, hr' : pyFloatList r with
      | none, _ => rw [pyFloatList, hv] at h; exact Option.noConfusion h
      | some x, none => rw [pyFloatList, hv, hr'] at h; exact Option.noConfusion h
      | some x, some ys => exact ih hr' hr

/-- Number of list entries the `g`-branch token loop appends, mirroring
`gLoop` step by step (the repeat count for a `g` triple, one per plain
token outside a triple). -/
def gCount (os : List String) (idx : ℕ) (gNo : Option ℕ) : Option ℕ :=
  match os with
  | [] => some 0
  | v :: rest =>
    if v = "g" then
      match (rest.get? 0).bind pyInt, (rest.get? 1).bind pyFloat with
      | some rep, some _ => (gCount rest (idx + 1) (some idx)).map (rep.toNat + ·)
      | _, _ => none
    else
      match gNo with
      | none =>
        match pyFloat v with
        | some _ => (gCount rest (idx + 1) none).map (· + 1)
        | none => none
      | some g =>
        if g + 2 < idx then
          match pyFloat v with
          | some _ => (gCount rest (idx + 1) (some g)).map (· + 1)
          | none => none
        else
          gCount rest (idx + 1) (some g)

theorem gLoop_length (resize : ℚ) :
    ∀ (os : List String) (idx : ℕ) (gNo : Option ℕ) (cp : ℚ) (l : List ℚ),
      gLoop resize os idx gNo cp = some l → gCount os idx gNo = some l.length := by
  intro os
  induction os with
  | nil =>
    intro idx gNo cp l h
    simp only [gLoop, Option.some.injEq] at h
    subst h
    rfl
  | cons v rest ih =>
    intro idx gNo cp l h
    match gNo with
    | none =>
      by_cases hg : v = "g"
      · rw [gLoop, if_pos hg] at h
        rw [gCount, if_pos hg]
        match h1 : (rest.get? 0).bind pyInt, h2 : (rest.get? 1).bind pyFloat with
        | none, _ => rw [h1] at h; exact Option.noConfusion h
        | some rep, none => rw [h1, h2] at h; exact Option.noConfusion h
        | some rep, some step =>
          rw [h1, h2] at h
          dsimp only at h
          match ht : gLoop resize rest (idx + 1) (some idx) ((gRepeat cp step rep.toNat).2) with
          | none =>
            rw [ht] at h
            exact Option.noConfusion h
          | some t =>
            rw [ht] at h
            simp only [Option.map_some', Option.some.injEq] at h
            rw [ih _ _ _ _ ht]
            simp only [Option.map_some', Option.some.injEq]
            rw [← h]
            simp [gRepeat_eq, addsFrom_length]
      · rw [gLoop, if_neg hg] at h
        rw [gCount, if_neg hg]
        match hv : pyFloat v with
        | none => rw [hv] at h; exact Option.noConfusion h
        | some x =>
          rw [hv] at h
          dsimp only at h
          match ht : gLoop resize rest (idx + 1) none (cp + x * resize) with
          | none => rw [ht] at h; exact Option.noConfusion h
          | some t =>
            rw [ht] at h
            simp only [Option.map_some', Option.some.injEq] at h
            rw [ih _ _ _ _ ht, ← h]
            simp [Nat.add_comm]
    | some g =>
      by_cases hg : v = "g"
      · rw [gLoop, if_pos hg] at h
        rw [gCount, if_pos hg]
        match h1 : (rest.get? 0).bind pyInt, h2 : (rest.get? 1).bind pyFloat with
        | none, _ => rw [h1] at h; exact Option.noConfusion h
        | some rep, none => rw [h1, h2] at h; exact Option.noConfusion h
        | some rep, some step =>
          rw [h1, h2] at h
          dsimp only at h
          match ht : gLoop resize rest (idx + 1) (some idx) ((gRepeat cp step rep.toNat).2) with
          | none =>
            rw [ht] at h
            exact Option.noConfusion h
          | some t =>
            rw [ht] at h
            simp only [Option.map_some', Option.some.injEq] at h
            rw [ih _ _ _ _ ht]
            simp only [Option.map_some', Option.some.injEq]
            rw [← h]
            simp [gRepeat_eq, addsFrom_length]
      · rw [gLoop, if_neg hg] at h
        rw [gCount, if_neg hg]
        by_cases hidx : g + 2 < idx
        · rw [if_pos hidx] at h ⊢
          match hv : pyFloat v with
          | none => rw [hv] at h; exact Option.noConfusion h
          | some x =>
            rw [hv] at h
            dsimp only at h
            match ht : gLoop resize rest (idx + 1) (some g) (cp + x * resize) with
            | none => rw [ht] at h; exact Option.noConfusion h
            | some t =>
              rw [ht] at h
              simp only [Option.map_some', Option.some.injEq] at h
              rw [ih _ _ _ _ ht, ← h]
              simp [Nat.add_comm]
        · rw [if_neg hidx] at h ⊢
          exact ih _ _ _ _ h

theorem plainLoop_length (resize : ℚ) :
    ∀ (os : List String) (cp : ℚ) (l : List ℚ),
      plainLoop resize os cp = some l → l.length = os.length := by
  intro os
  induction os with
  | nil =>
    intro cp l h
    simp only [plainLoop, Option.some.injEq] at h
    subst h
    rfl
  | cons v rest ih =>
    intro cp l h
    rw [plainLoop] at h
    match hv : pyFloatOr0 v with
    | none => rw [hv] at h; exact Option.noConfusion h
    | some x =>
      rw [hv] at h
      dsimp only at h
      match ht : plainLoop resize rest (cp + x * resize) with
      | none => rw [ht] at h; exact Option.noConfusion h
      | some t =>
        rw [ht] at h
        simp only [Option.map_some', Option.some.injEq] at h
        rw [← h, List.length_cons, List.length_cons, ih _ _ ht]

theorem pySplitAux_ne_nil (sep : Char) :
    ∀ (cs cur : List Char), pySplitAux sep cs cur ≠ [] := by
  intro cs
  induction cs with
  | nil => intro cur; simp [pySplitAux]
  | cons c cs ih =>
    intro cur
    rw [pySplitAux]
    by_cases hc : c = sep
    · rw [if_pos hc]; simp
    · rw [if_neg hc]; exact ih _

theorem pySplit_ne_nil (sep : Char) (s : String) : pySplit sep s ≠ [] :=
  pySplitAux_ne_nil sep s.data []

/-- Characterization of `cmp_offset` on a Delta rule of shape
`pre ++ ["g", ns, ss] ++ post` with all tokens parseable and no further
`g` token: the first coordinate is `pos + (offset + move) * resize`, each
`pre`/`post` token advances by its value times `resize`, and the `g`
triple advances `n` times by exactly `s` (not scaled by `resize`). -/
theorem cmpOffsetTokens_g_spec
    (pos : Option ℚ) (off : String) (off0 : ℚ) (pre post : List String)
    (ns ss : String) (n : ℤ) (s : ℚ) (xs zs : List ℚ)
    (text : String) (ctm : Option CTMInfo) (dire : TextAxis)
    (hoff : pyFloatOr0 off = some off0)
    (hn : pyInt ns = some n) (hs : pyFloat ss = some s)
    (hpre : pyFloatList pre = some xs) (hpost : pyFloatList post = some zs) :
    cmpOffsetTokens pos off (pre ++ "g" :: ns :: ss :: post) text ctm dire =
      some (List.scanl (· + ·)
        (pos.getD 0 + (off0 + moveOf ctm dire) * resizeOf ctm dire)
        (xs.map (· * resizeOf ctm dire) ++ List.replicate n.toNat s
          ++ zs.map (· * resizeOf ctm dire))) := by
  have hcontains : (pre ++ "g" :: ns :: ss :: post).contains "g" = true := by
    simp [List.elem_eq_mem]
  rw [cmpOffsetTokens, hoff]
  dsimp only
  rw [if_pos hcontains]
  rw [gLoop_pre (resizeOf ctm dire) pre xs hpre _ 0
    (pos.getD 0 + (off0 + moveOf ctm dire) * resizeOf ctm dire)]
  rw [gLoop]
  rw [if_pos rfl]
  dsimp only [List.get?]
  simp only [Option.some_bind]
  rw [hn, hs]
  dsimp only
  rw [gRepeat_eq]
  dsimp only
  rw [gLoop, if_neg (pyInt_ne_g hn)]
  rw [if_neg (by omega : ¬ (0 + pre.length) + 2 < 0 + pre.length + 1)]
  rw [gLoop, if_neg (pyFloat_ne_g hs)]
  rw [if_neg (by omega : ¬ (0 + pre.length) + 2 < 0 + pre.length + 1 + 1)]
  rw [gLoop_post (resizeOf ctm dire) post zs (0 + pre.length) hpost
    (0 + pre.length + 1 + 1 + 1) _ (by omega)]
  rw [scanl_eq_addsFrom, addsFrom_append, addsFrom_append]
  simp only [Option.map_some', Option.some.injEq, List.append_assoc, List.sum_append,
    List.sum_replicate, nsmul_eq_mul]
  ring_nf
  simp only [add_assoc]
  rw [mul_comm s ((n.toNat : ℚ))]

/-- The number of advance entries a Delta rule encodes, mirroring the
branch structure of `cmp_offset`: with a `g` token, `gCount`; otherwise
one advance per token. -/
def ruleAdvances (rule : String) : Option ℕ :=
  let offsets := if rule = "" then [] else pySplit ' ' rule
  if offsets.contains "g" then gCount offsets 0 none else some offsets.length

theorem cmpOffsetTokens_length (pos : Option ℚ) (off : String)
    (offsets : List String) (text : String) (ctm : Option CTMInfo)
    (dire : TextAxis) (l : List ℚ)
    (h : cmpOffsetTokens pos off offsets text ctm dire = some l) :
    (offsets = [] → l.length = text.length) ∧
    (offsets ≠ [] →
      ∃ n, (if offsets.contains "g" then gCount offsets 0 none
            else some offsets.length) = some n ∧ l.length = n + 1) := by
  rw [cmpOffsetTokens] at h
  match hoff : pyFloatOr0 off with
  | none => rw [hoff] at h; exact Option.noConfusion h
  | some off0 =>
    rw [hoff] at h
    dsimp only at h
    by_cases hc : offsets.contains "g" = true
    · rw [if_pos hc] at h
      obtain ⟨t, ht, hl⟩ := Option.map_eq_some'.mp h
      constructor
      · intro he
        rw [he] at hc
        simp [List.contains] at hc
      · intro _
        refine ⟨t.length, ?_, ?_⟩
        · rw [if_pos hc]
          exact gLoop_length _ _ _ _ _ _ ht
        · rw [← hl]
          simp
    · rw [if_neg hc] at h
      by_cases he : offsets.isEmpty
      · rw [if_pos he] at h
        rw [List.isEmpty_iff] at he
        constructor
        · intro _
          simp only [Option.some.injEq] at h
          rw [← h]
          simp
        · intro hne
          exact absurd he hne
      · rw [if_neg he] at h
        rw [List.isEmpty_iff] at he
        obtain ⟨t, ht, hl⟩ := Option.map_eq_some'.mp h
        constructor
        · intro h0
          exact absurd h0 he
        · intro _
          refine ⟨offsets.length, ?_, ?_⟩
          · rw [if_neg hc]
          · rw [← hl]
            simp [plainLoop_length _ _ _ _ ht]

/-- C3 (amended): the per-character coordinate list has at least as many
entries as the run's character count provided the Delta rule is empty, or
the rule's encoded advance count `n` (one per plain token, the repeat
count for a `g` triple) satisfies `character count ≤ n + 1`; in general
the list has exactly `n + 1` entries, which can be fewer than the
character count. -/
theorem claim_C3 (pos : Option ℚ) (off rule text : String)
    (ctm : Option CTMInfo) (dire : TextAxis) (l : List ℚ)
    (h : cmpOffset pos off rule text ctm dire = some l)
    (hcover : rule = "" ∨
      ∃ n, ruleAdvances rule = some n ∧ text.length ≤ n + 1) :
    text.length ≤ l.length := by
  rw [cmpOffset] at h
  by_cases hr : rule = ""
  · rw [if_pos hr] at h
    have := (cmpOffsetTokens_length _ _ _ _ _ _ _ h).1 rfl
    omega
  · rw [if_neg hr] at h
    rcases hcover with hcover | ⟨n, hn, hle⟩
    · exact absurd hcover hr
    · rw [ruleAdvances] at hn
      rw [if_neg hr] at hn
      have := (cmpOffsetTokens_length _ _ _ _ _ _ _ h).2 (pySplit_ne_nil _ _)
      obtain ⟨m, hm, hlen⟩ := this
      rw [hn] at hm
      obtain rfl : n = m := by injection hm
      omega

/-- C3 counterexample: for the 3-character run "abc" with Delta rule "5",
the computed coordinate list has only 2 entries, fewer than the
character count, refuting the claim for arbitrary Delta rule strings. -/
theorem claim_C3_counterexample :
    cmpOffset (some 0) "" "5" "abc" none TextAxis.X = some [0, 5] ∧
    ([0, 5] : List ℚ).length < "abc".length := by
  constructor
  · simp +decide [cmpOffset, cmpOffsetTokens, pySplit, pySplitAux, plainLoop,
      pyFloatOr0, pyFloat, digitsVal, digitVal, resizeOf, moveOf]
  · decide

/-- Witness for the amended C3 at a concrete input (empty Delta rule). -/
theorem claim_C3_witness :
    cmpOffset (some 0) "" "" "ab" none TextAxis.X = some [0, 0] ∧
    "ab".length ≤ ([0, 0] : List ℚ).length := by
  have h : cmpOffset (some 0) "" "" "ab" none TextAxis.X = some [0, 0] := by
    simp +decide [cmpOffset, cmpOffsetTokens, pyFloatOr0, resizeOf, moveOf]
  exact ⟨h, claim_C3 (some 0) "" "" "ab" none TextAxis.X [0, 0] h (Or.inl rfl)⟩

/-- C2: for a text run with Delta rule "g 3 6", starting position 0,
empty start offset and no CTM, the per-character coordinate list is
[0, 6, 12, 18]: the first absolute coordinate followed by three repeats
of step 6, the repeat count and step being the two tokens after "g". -/
theorem claim_C2 (text : String) :
    cmpOffset (some 0) "" "g 3 6" text none TextAxis.X = some [0, 6, 12, 18] := by
  have hsplit : (if ("g 3 6" : String) = "" then ([] : List String)
      else pySplit ' ' "g 3 6") = [] ++ "g" :: "3" :: "6" :: [] := by decide
  rw [cmpOffset, hsplit]
  rw [cmpOffsetTokens_g_spec (some 0) "" 0 [] [] "3" "6" 3 6 [] [] text none TextAxis.X
    (by decide) (by decide) (by simp +decide [pyFloat, digitsVal, digitVal]) rfl rfl]
  norm_num [resizeOf, moveOf, List.scanl]

/-- C10 (implicit): on a Delta rule of shape `pre ++ ["g", n, s] ++ post`
(all tokens numeric, no further `g`), the CTM scale factor is applied to
every plain token but not to the repeated `g` step: the first coordinate
is `start + (offset + move) * resize`, each `pre`/`post` token `t` adds
`t * resize`, and each of the `n` repeats adds exactly `s`. -/
theorem claim_C10 (pos : Option ℚ) (off : String) (off0 : ℚ)
    (pre post : List String) (ns ss : String) (n : ℤ) (s : ℚ)
    (xs zs : List ℚ) (text : String) (ctm : Option CTMInfo) (dire : TextAxis)
    (hoff : pyFloatOr0 off = some off0)
    (hn : pyInt ns = some n) (hs : pyFloat ss = some s)
    (hpre : pyFloatList pre = some xs) (hpost : pyFloatList post = some zs) :
    cmpOffsetTokens pos off (pre ++ "g" :: ns :: ss :: post) text ctm dire =
      some (List.scanl (· + ·)
        (pos.getD 0 + (off0 + moveOf ctm dire) * resizeOf ctm dire)
        (xs.map (· * resizeOf ctm dire) ++ List.replicate n.toNat s
          ++ zs.map (· * resizeOf ctm dire))) :=
  cmpOffsetTokens_g_spec pos off off0 pre post ns ss n s xs zs text ctm dire
    hoff hn hs hpre hpost

/-- Witness for C10 at a concrete input: rule tokens "2 g 3 6 5" with CTM
scale 2 on the X axis: the plain tokens 2 and 5 advance by 4 and 10, the
three `g` repeats advance by exactly 6 each. -/
theorem claim_C10_witness :
    pyFloatOr0 "" = some 0 ∧ pyInt "3" = some 3 ∧ pyFloat "6" = some 6 ∧
    pyFloatList ["2"] = some [2] ∧ pyFloatList ["5"] = some [5] ∧
    cmpOffsetTokens (some 1) "" (["2"] ++ "g" :: "3" :: "6" :: ["5"]) "ab"
      (some ⟨2, 1, 0, 0⟩) TextAxis.X = some [1, 5, 11, 17, 23, 33] := by
  have h1 : pyFloatOr0 "" = some 0 := by decide
  have h2 : pyInt "3" = some 3 := by decide
  have h3 : pyFloat "6" = some 6 := by simp +decide [pyFloat, digitsVal, digitVal]
  have h4 : pyFloatList ["2"] = some [2] := by
    simp +decide [pyFloatList, pyFloat, digitsVal, digitVal]
  have h5 : pyFloatList ["5"] = some [5] := by
    simp +decide [pyFloatList, pyFloat, digitsVal, digitVal]
  refine ⟨h1, h2, h3, h4, h5, ?_⟩
  rw [claim_C10 (some 1) "" 0 ["2"] ["5"] "3" "6" 3 6 [2] [5] "ab"
    (some ⟨2, 1, 0, 0⟩) TextAxis.X h1 h2 h3 h4 h5]
  norm_num [resizeOf, moveOf, List.scanl]

/-! ## DrawPDF top-level call (draw/draw_pdf.py lines 105-116 and 305-356)

The byte output of the reportlab canvas is abstracted as a stream of
naturals: a fixed `%PDF` header followed by an encoding of every page's
drawing operations (the pdf_io buffer receives bytes only when a canvas
is saved, so a pass that raises before `save` leaves the buffer empty
and the fallback page is the only content ever returned). -/

/-- A canvas drawing operation (only the ones the fallback page uses are
distinguished; everything else is opaque). -/
inductive PdfOp where
  | setFont (name : String) (size : ℚ)
  | drawString (x y : ℚ) (text : String) (mode : ℕ)
  | rawOp (tag : String)
deriving DecidableEq

/-- One rendered PDF page: its size in points and its operations. -/
structure PdfPage where
  width : ℚ
  height : ℚ
  ops : List PdfOp
deriving DecidableEq

/-- reportlab's A4 page size in points (210mm x 297mm, 72 dpi). -/
def pageA4 : ℚ × ℚ := (210 * 72 / (25.4 : ℚ), 297 * 72 / (25.4 : ℚ))

/-- `DrawPDF.gen_empty_pdf`: the fixed fallback page - A4, the default
font at size 20, the literal message drawn at (0, 210) with mode 1. -/
def gen_empty_pdf : PdfPage :=
  { width := pageA4.1, height := pageA4.2,
    ops := [PdfOp.setFont "宋体" 20,
            PdfOp.drawString 0 210 "ofd 格式错误,不支持解析" 1] }

/-- Encoding of one drawing operation into the abstract byte stream. -/
def encodeOp : PdfOp → List ℕ
  | .setFont n s => 1 :: s.num.natAbs :: n.data.map Char.toNat
  | .drawString _ _ t m => 2 :: m :: t.data.map Char.toNat
  | .rawOp t => 3 :: t.data.map Char.toNat

/-- The canvas save: a `%PDF` header then every page's encoded content.
Structurally never empty. -/
def pdfRender (pages : List PdfPage) : List ℕ :=
  37 :: 80 :: 68 :: 70 :: pages.foldr (fun p acc => 12 :: p.ops.foldr (fun o a => encodeOp o ++ a) acc) []

/-- One parsed document of the intermediate model, reduced to what the
render pass consumes.  Modelled from the spec: the body of
`DrawPDF.draw_pdf` is not present under src/ (draw_pdf.py elides it with
a comment), so the per-page rendering it performs is abstracted as the
document's already-rendered page list. -/
structure OfdDoc where
  pdf_name : String
  pages : List PdfPage
deriving DecidableEq

/-- Modelled from the spec: `DrawPDF.draw_pdf` renders the pages of the
first document of the model (§4.11: only the first document is rendered
by the public entry point). -/
def renderPass (data : List OfdDoc) : List PdfPage :=
  match data with
  | [] => []
  | d :: _ => d.pages

/-- `DrawPDF.__call__`: run the render pass; a completed pass saves its
canvas into the buffer, any exception (`failure`) reaches the handler
with the buffer still empty, which then renders the fallback page and
returns that instead. -/
def drawPDFCall (data : List OfdDoc) (failure : Option String) : List ℕ :=
  match failure with
  | none => pdfRender (renderPass data)
  | some _ => pdfRender [gen_empty_pdf]

/-- C1: for every non-empty document model and every outcome of the
render pass, the engine returns a non-empty byte sequence and never an
exception; on any exception the result is exactly the fallback page,
whose operations are the default font at size 20 and the literal message
"ofd 格式错误,不支持解析". -/
theorem claim_C1 (data : List OfdDoc) (failure : Option String)
    (hdata : data ≠ []) :
    drawPDFCall data failure ≠ [] ∧
    (∀ e, failure = some e →
      drawPDFCall data failure = pdfRender [gen_empty_pdf]) ∧
    PdfOp.setFont "宋体" 20 ∈ gen_empty_pdf.ops ∧
    PdfOp.drawString 0 210 "ofd 格式错误,不支持解析" 1 ∈ gen_empty_pdf.ops := by
  refine ⟨?_, ?_, ?_, ?_⟩
  · cases failure <;> simp [drawPDFCall, pdfRender]
  · intro e he
    rw [he, drawPDFCall]
  · simp [gen_empty_pdf]
  · simp [gen_empty_pdf]

/-- Witness for C1: a concrete one-document model with a failing pass
returns exactly the fallback bytes. -/
theorem claim_C1_witness :
    ([⟨"demo.pdf", []⟩] : List OfdDoc) ≠ [] ∧
    drawPDFCall [⟨"demo.pdf", []⟩] (some "boom") ≠ [] ∧
    drawPDFCall [⟨"demo.pdf", []⟩] (some "boom") = pdfRender [gen_empty_pdf] := by
  have h := claim_C1 [⟨"demo.pdf", []⟩] (some "boom") (by simp)
  exact ⟨by simp, h.1, h.2.1 "boom" rfl⟩

/-! ## Attribute trees (the xmltodict representation)

The templates and parsers operate on Python nested dict / list / scalar
structures parsed from or serialized to XML.  `JObj` is an
insertion-ordered dict (Python 3.7+ semantics), `JArr` a list.  `str`
holds string atoms; `num` holds Python ints/floats; `nums` models a
string that is the space-joined rendering of a list of numbers (such as
a `@Boundary` or `@CTM` value built with an f-string): splitting such a
string on spaces and parsing each token with `float` recovers exactly
the list, so the round trip format-then-parse is the identity on it. -/

mutual
inductive JNode where
  | str (s : String)
  | num (q : ℚ)
  | nums (l : List ℚ)
  | obj (o : JObj)
  | arr (a : JArr)
deriving DecidableEq
inductive JObj where
  | nil
  | cons (k : String) (v : JNode) (rest : JObj)
deriving DecidableEq
inductive JArr where
  | nil
  | cons (v : JNode) (rest : JArr)
deriving DecidableEq
end

/-- Build a `JObj` from a list of key/value pairs. -/
def jobj : List (String × JNode) → JObj
  | [] => .nil
  | (k, v) :: r => .cons k v (jobj r)

/-- Build a `JArr` from a list of nodes. -/
def jarr : List JNode → JArr
  | [] => .nil
  | v :: r => .cons v (jarr r)

/-- The elements of a `JArr` as a list. -/
def JArr.toList : JArr → List JNode
  | .nil => []
  | .cons v r => v :: r.toList

/-- Python `d.get(key)`: the first binding of `key`, if any. -/
def JObj.get : JObj → String → Option JNode
  | .nil, _ => none
  | .cons k v rest, key => if k = key then some v else rest.get key

/-- Python `d.get(key, default)`. -/
def JObj.getD (o : JObj) (key : String) (d : JNode) : JNode :=
  (o.get key).getD d

/-- Python `d[key] = val`: replace the first binding in place, else append. -/
def JObj.set : JObj → String → JNode → JObj
  | .nil, key, val => .cons key val .nil
  | .cons k v rest, key, val =>
    if k = key then .cons k val rest else .cons k v (rest.set key val)

/-- Python `d.pop(key, None)`: remove the first binding of `key`,
returning its value (if any) and the remaining dict. -/
def JObj.pop : JObj → String → Option JNode × JObj
  | .nil, _ => (none, .nil)
  | .cons k v rest, key =>
    if k = key then (some v, rest)
    else
      let (r, rest1) := rest.pop key
      (r, .cons k v rest1)

/-- Python truthiness of an attribute-tree value: empty string, zero,
empty dict and empty list are falsy (`nums` models a non-empty numeric
string, hence truthy). -/
def pyTruthy : JNode → Bool
  | .str s => !(s == "")
  | .num q => !(q == 0)
  | .nums _ => true
  | .obj .nil => false
  | .obj _ => true
  | .arr .nil => false
  | .arr _ => true

/-- Lookup in the allocator's uuid map (Python dict `uuid_map[k]`). -/
def lookupPair (k : String) : List (String × String) → Option String
  | [] => none
  | (k', v) :: r => if k' = k then some v else lookupPair k r

/-! ## TemplateBase.modify (ofdtemplate.py lines 215-234)

Replace every occurrence of `key` anywhere in the tree by `value`;
replaced values are not descended into. -/

mutual
def modifyO (key : String) (val : JNode) : JObj → JObj
  | .nil => .nil
  | .cons k v rest =>
    if k = key then .cons k val (modifyO key val rest)
    else
      match v with
      | .obj o => .cons k (.obj (modifyO key val o)) (modifyO key val rest)
      | .arr a => .cons k (.arr (modifyA key val a)) (modifyO key val rest)
      | _ => .cons k v (modifyO key val rest)
def modifyA (key : String) (val : JNode) : JArr → JArr
  | .nil => .nil
  | .cons v rest =>
    match v with
    | .obj o => .cons (.obj (modifyO key val o)) (modifyA key val rest)
    | _ => .cons v (modifyA key val rest)
end

/-! ## gen_id (ofdtemplate.py lines 181-213, 370-406, 446-481)

The base-class `gen_id` and the DocumentRes/PublicRes override are
identical except that the override additionally records a truthy
`res_uuid` carrier against the freshly assigned id in the shared
allocator; the `record` flag selects the override behaviour. -/

/-- The `if res_uuid := node.get("res_uuid"): add_uuid_map(res_uuid, id)`
step of the DocumentRes/PublicRes `gen_id` override (a no-op for the
base class, for an absent or falsy carrier, and for a non-string carrier
- the source would use it as a dict key, which this repository only ever
does with strings). -/
def recUuid (record : Bool) (o : JObj) (idStr : String) (s : CurId) : CurId :=
  if record then
    match o.get "res_uuid" with
    | some u =>
      if pyTruthy u then
        match u with
        | .str us => s.add_uuid_map us idStr
        | _ => s
      else s
    | none => s
  else s

mutual
/-- `gen_id` over a dict: a binding whose key equals `id_key` gets
`@ID` assigned (dict value) or every element assigned (list value);
other bindings are searched recursively. -/
def genIdO (record : Bool) (idKey : String) : JObj → CurId → JObj × CurId
  | .nil, s => (.nil, s)
  | .cons k v rest, s =>
    if k = idKey then
      match v with
      | .obj vo =>
        let (n, s1) := s.get_id
        let vo1 := vo.set "@ID" (.str (Nat.repr n))
        let s2 := recUuid record vo1 (Nat.repr n) s1
        let (rest1, s3) := genIdO record idKey rest s2
        (.cons k (.obj vo1) rest1, s3)
      | .arr va =>
        let (va1, s1) := genIdAssign record va s
        let (rest1, s2) := genIdO record idKey rest s1
        (.cons k (.arr va1) rest1, s2)
      | _ =>
        let (rest1, s1) := genIdO record idKey rest s
        (.cons k v rest1, s1)
    else
      match v with
      | .obj vo =>
        let (vo1, s1) := genIdO record idKey vo s
        let (rest1, s2) := genIdO record idKey rest s1
        (.cons k (.obj vo1) rest1, s2)
      | .arr va =>
        let (va1, s1) := genIdRecurse record idKey va s
        let (rest1, s2) := genIdO record idKey rest s1
        (.cons k (.arr va1) rest1, s2)
      | _ =>
        let (rest1, s1) := genIdO record idKey rest s
        (.cons k v rest1, s1)
/-- The `for i in ofdjson[k]: i["@ID"] = str(get_id())` loop over a
matched list value (elements are dicts in every tree this repository
builds; a non-dict element would raise TypeError in the source and is
left unchanged here). -/
def genIdAssign (record : Bool) : JArr → CurId → JArr × CurId
  | .nil, s => (.nil, s)
  | .cons v rest, s =>
    match v with
    | .obj vo =>
      let (n, s1) := s.get_id
      let vo1 := vo.set "@ID" (.str (Nat.repr n))
      let s2 := recUuid record vo1 (Nat.repr n) s1
      let (rest1, s3) := genIdAssign record rest s2
      (.cons (.obj vo1) rest1, s3)
    | _ =>
      let (rest1, s1) := genIdAssign record rest s
      (.cons v rest1, s1)
/-- Recursive search of list elements under a non-matching key. -/
def genIdRecurse (record : Bool) (idKey : String) : JArr → CurId → JArr × CurId
  | .nil, s => (.nil, s)
  | .cons v rest, s =>
    match v with
    | .obj vo =>
      let (vo1, s1) := genIdO record idKey vo s
      let (rest1, s2) := genIdRecurse record idKey rest s1
      (.cons (.obj vo1) rest1, s2)
    | _ =>
      let (rest1, s1) := genIdRecurse record idKey rest s
      (.cons v rest1, s1)
end

/-! ## ContentTemplate.correlate_res_uuid (ofdtemplate.py lines 583-621)

For every node under a binding of `key`: pop its `res_uuid` carrier and
write the allocator-recorded id into the `targe_key` attribute.  A
missing uuid recording is a KeyError (`none`).  A dict-valued match hits
the source defect of referencing the list-branch loop variable `v_cell`,
unbound in a fresh call frame (NameError, `none` here). -/

mutual
def corrO (key targe : String) (m : List (String × String)) : JObj → Option JObj
  | .nil => some .nil
  | .cons k v rest =>
    if k = key then
      match v with
      | .obj _ => none
      | .arr va =>
        match corrAssign targe m va, corrO key targe m rest with
        | some va1, some rest1 => some (.cons k (.arr va1) rest1)
        | _, _ => none
      | _ =>
        match corrO key targe m rest with
        | some rest1 => some (.cons k v rest1)
        | none => none
    else
      match v with
      | .obj vo =>
        match corrO key targe m vo, corrO key targe m rest with
        | some vo1, some rest1 => some (.cons k (.obj vo1) rest1)
        | _, _ => none
      | .arr va =>
        match corrRecurse key targe m va, corrO key targe m rest with
        | some va1, some rest1 => some (.cons k (.arr va1) rest1)
        | _, _ => none
      | _ =>
        match corrO key targe m rest with
        | some rest1 => some (.cons k v rest1)
        | none => none
def corrAssign (targe : String) (m : List (String × String)) : JArr → Option JArr
  | .nil => some .nil
  | .cons v rest =>
    match v with
    | .obj vo =>
      let (pu, vo1) := vo.pop "res_uuid"
      match pu with
      | some u =>
        if pyTruthy u then
          match u with
          | .str us =>
            match lookupPair us m with
            | some idv =>
              match corrAssign targe m rest with
              | some rest1 => some (.cons (.obj (vo1.set targe (.str idv))) rest1)
              | none => none
            | none => none
          | _ => none
        else
          match corrAssign targe m rest with
          | some rest1 => some (.cons (.obj vo1) rest1)
          | none => none
      | none =>
        match corrAssign targe m rest with
        | some rest1 => some (.cons (.obj vo) rest1)
        | none => none
    | _ =>
      match corrAssign targe m rest with
      | some rest1 => some (.cons v rest1)
      | none => none
def corrRecurse (key targe : String) (m : List (String × String)) :
    JArr → Option JArr
  | .nil => some .nil
  | .cons v rest =>
    match v with
    | .obj vo =>
      match corrO key targe m vo, corrRecurse key targe m rest with
      | some vo1, some rest1 => some (.cons (.obj vo1) rest1)
      | _, _ => none
    | _ =>
      match corrRecurse key targe m rest with
      | some rest1 => some (.cons v rest1)
      | none => none
end

/-! ## FileParserBase.recursion_ext (file_parser_base.py lines 50-92)

Depth-first collection of every value bound to `key` anywhere in the
tree: dict- and str-valued matches are appended as one entry, list
values are flattened, other values are ignored; matched values are not
descended into; a non-dict top-level object yields nothing. -/

mutual
def rExtO (key : String) : JObj → List JNode
  | .nil => []
  | .cons k v rest =>
    (if k = key then
      match v with
      | .obj _ => [v]
      | .str _ => [v]
      | .nums _ => [v]
      | .arr va => va.toList
      | .num _ => []
     else
      match v with
      | .obj vo => rExtO key vo
      | .arr va => rExtA key va
      | _ => []) ++ rExtO key rest
def rExtA (key : String) : JArr → List JNode
  | .nil => []
  | .cons v rest =>
    (match v with
     | .obj vo => rExtO key vo
     | _ => []) ++ rExtA key rest
end

/-- `recursion_ext` entry point on an arbitrary node. -/
def recursionExt (key : String) : JNode → List JNode
  | .obj o => rExtO key o
  | _ => []

/-! ## Template skeletons (ofdtemplate.py default ofdjson trees) -/

/-- OFDTemplate.ofdjson (OFD.xml default skeleton). -/
def ofdSkeleton : JObj := jobj [
  ("ofd:OFD", .obj (jobj [
    ("@xmlns:ofd", .str "http://blog.yuanhaiying.cn"),
    ("@Version", .str "1.1"),
    ("@DocType", .str "OFD"),
    ("ofd:DocBody", .arr (jarr [
      .obj (jobj [
        ("ofd:DocInfo", .obj (jobj [
          ("ofd:DocID", .str "0C1D4F7159954EEEDE517F7285E84DC4"),
          ("ofd:Creator", .str "easyofd"),
          ("ofd:author", .str "renoyuan"),
          ("ofd:authoremail", .str "renoyuan@foxmail.com"),
          ("ofd:CreatorVersion", .str "1.0"),
          ("ofd:CreationDate", .str "2023-10-27")])),
        ("ofd:DocRoot", .str "Doc_0/Document.xml")])]))]))]

/-- DocumentTemplate.ofdjson (Document.xml default skeleton). -/
def documentSkeleton : JObj := jobj [
  ("ofd:Document", .obj (jobj [
    ("@xmlns:ofd", .str "http://blog.yuanhaiying.cn"),
    ("ofd:CommonData", .obj (jobj [
      ("ofd:MaxUnitID", .num 0),
      ("ofd:PageArea", .obj (jobj [("ofd:PhysicalBox", .str "0 0 140 90")])),
      ("ofd:PublicRes", .str "PublicRes.xml"),
      ("ofd:DocumentRes", .str "DocumentRes.xml")])),
    ("ofd:Pages", .obj (jobj [
      ("ofd:Page", .arr (jarr [
        .obj (jobj [("@ID", .num 0),
                    ("@BaseLoc", .str "Pages/Page_0/Content.xml")])]))]))]))]

/-- DocumentResTemplate.ofdjson (DocumentRes.xml default skeleton). -/
def documentResSkeleton : JObj := jobj [
  ("ofd:Res", .obj (jobj [
    ("@xmlns:ofd", .str "http://blog.yuanhaiying.cn"),
    ("@BaseLoc", .str "Res"),
    ("ofd:MultiMedias", .obj (jobj [
      ("ofd:MultiMedia", .arr (jarr [
        .obj (jobj [("@ID", .num 0), ("@Type", .str "Image"),
                    ("ofd:MediaFile", .str "Image_2.jpg")])]))]))]))]

/-- PublicResTemplate.ofdjson (PublicRes.xml default skeleton). -/
def publicResSkeleton : JObj := jobj [
  ("ofd:Res", .obj (jobj [
    ("@xmlns:ofd", .str "http://blog.yuanhaiying.cn"),
    ("@BaseLoc", .str "Res"),
    ("ofd:ColorSpaces", .obj (jobj [
      ("ofd:ColorSpace", .obj (jobj [
        ("@ID", .num 0), ("@Type", .str "RGB"),
        ("@BitsPerComponent", .str "8"), ("#text", .str "")]))])),
    ("ofd:Fonts", .obj (jobj [
      ("ofd:Font", .arr (jarr [
        .obj (jobj [("@ID", .num 0), ("@FontName", .str "宋体"),
                    ("@FamilyName", .str "宋体")])]))]))]))]

/-- ContentTemplate.ofdjson (Content.xml default skeleton, including the
demo TextObject entry the source ships in the template). -/
def contentSkeleton : JObj := jobj [
  ("ofd:Page", .obj (jobj [
    ("@xmlns:ofd", .str "http://blog.yuanhaiying.cn"),
    ("ofd:Content", .obj (jobj [
      ("ofd:PageArea", .obj (jobj [("ofd:PhysicalBox", .str "0 0 210 140")])),
      ("ofd:Layer", .obj (jobj [
        ("@ID", .num 0),
        ("@Type", .str "Foreground"),
        ("ofd:TextObject", .arr (jarr [
          .obj (jobj [
            ("@ID", .num 0),
            ("@CTM", .str "7.054 0 0 7.054 0 134.026"),
            ("@Boundary", .str "69 7 72 7.6749"),
            ("@Font", .str "69"),
            ("@Size", .str "6.7028"),
            ("ofd:FillColor", .obj (jobj [
              ("@ColorSpace", .str "4"), ("@Value", .str "156 82 35")])),
            ("ofd:CGTransform", .obj (jobj [
              ("@CodePosition", .str "0"), ("@CodeCount", .str "10"),
              ("@GlyphCount", .str "10"),
              ("ofd:Glyphs", .str "18 10 11 42 60 53 24 11 42 61")])),
            ("ofd:TextCode", .obj (jobj [
              ("@X", .str "13.925"), ("@Y", .str "10"),
              ("@DeltaX", .str "7 7 7 7 7 7 7 7 7"),
              ("#text", .str "电⼦发票（普通发票）")]))])])),
        ("ofd:ImageObject", .arr .nil)]))]))]))]

/-! ## Template assembly (TemplateBase.assemble and subclasses) -/

/-- `TemplateBase.assemble`: deep-copy the skeleton, apply every supplied
field through `modify` (the `key_map` renaming is inlined: callers pass
the mapped tag names directly, in the source call order of the keyword
arguments), then run `gen_id` for every tag in `id_keys` in order. -/
def tplAssemble (skel : JObj) (mods : List (String × JNode))
    (idKeys : List String) (record : Bool) (s : CurId) : JObj × CurId :=
  let t := mods.foldl (fun acc kv => modifyO kv.1 kv.2 acc) skel
  idKeys.foldl (fun acc k =>
    let (t1, s1) := acc
    genIdO record k t1 s1) (t, s)

/-- OFDTemplate construction (fields: Author, DocID, CreationDate; no
id-injected tags).  Only CreationDate is supplied by the write path. -/
def buildOFDTemplate (creationDate : String) (s : CurId) : JObj × CurId :=
  tplAssemble ofdSkeleton [("ofd:CreationDate", .str creationDate)] [] false s

/-- DocumentTemplate construction (fields Page and PhysicalBox in the
keyword order of `OFDWrite.build_document`; id-injected tag ofd:Page). -/
def buildDocumentTemplate (pages : List JNode) (physicalBox : JNode)
    (s : CurId) : JObj × CurId :=
  tplAssemble documentSkeleton
    [("ofd:Page", .arr (jarr pages)), ("ofd:PhysicalBox", physicalBox)]
    ["ofd:Page"] false s

/-- DocumentResTemplate construction (field MultiMedia; id-injected tags
ofd:DrawParam and ofd:MultiMedia, with uuid recording). -/
def buildDocumentResTemplate (multiMedia : List JNode) (s : CurId) :
    JObj × CurId :=
  tplAssemble documentResSkeleton
    [("ofd:MultiMedia", .arr (jarr multiMedia))]
    ["ofd:DrawParam", "ofd:MultiMedia"] true s

/-- PublicResTemplate construction (field Font; id-injected tags
ofd:ColorSpace and ofd:Font, with uuid recording). -/
def buildPublicResTemplate (fonts : List JNode) (s : CurId) : JObj × CurId :=
  tplAssemble publicResSkeleton
    [("ofd:Font", .arr (jarr fonts))]
    ["ofd:ColorSpace", "ofd:Font"] true s

/-- The id-injected tags of ContentTemplate. -/
def contentIdKeys : List String :=
  ["ofd:Layer", "ofd:TextObject", "ofd:PathObject", "ofd:Clips",
   "ofd:ImageObject"]

/-- ContentTemplate construction: assemble, then the correlation
post-pass over correlate_map in order (ofd:TextObject to @Font, then
ofd:ImageObject to @ResourceID), reading the shared allocator's uuid
map.  `none` models an uncaught exception in the correlation pass. -/
def buildContentTemplate (mods : List (String × JNode)) (s : CurId) :
    Option (JObj × CurId) :=
  let (t, s1) := tplAssemble contentSkeleton mods contentIdKeys false s
  match corrO "ofd:TextObject" "@Font" s1.uuid_map t with
  | none => none
  | some t1 =>
    match corrO "ofd:ImageObject" "@ResourceID" s1.uuid_map t1 with
    | none => none
    | some t2 => some (t2, s1)

/-! ## DocumentTemplate.update_max_unit_id (ofdtemplate.py lines 313-334)

Walk the items; a direct `ofd:MaxUnitID` key is overwritten with the
allocator's max-id hint and stops that dict's loop (the source returns);
recursive calls into child dicts/lists do not stop the outer loop. -/

mutual
def umuO (maxId : ℚ) : JObj → JObj
  | .nil => .nil
  | .cons k v rest =>
    if k = "ofd:MaxUnitID" then .cons k (.num maxId) rest
    else
      match v with
      | .obj vo => .cons k (.obj (umuO maxId vo)) (umuO maxId rest)
      | .arr va => .cons k (.arr (umuA maxId va)) (umuO maxId rest)
      | _ => .cons k v (umuO maxId rest)
def umuA (maxId : ℚ) : JArr → JArr
  | .nil => .nil
  | .cons v rest =>
    match v with
    | .obj vo => .cons (.obj (umuO maxId vo)) (umuA maxId rest)
    | _ => .cons v (umuA maxId rest)
end

/-- `update_max_unit_id` on a document template with allocator state `s`. -/
def updateMaxUnitId (doc : JObj) (s : CurId) : JObj :=
  umuO (s.get_max_id : ℚ) doc

/-! ## OFDWrite, image-list path (draw/draw_ofd.py)

Pixel dimensions stand for the opaque encoded image bytes (the PNG
codec is an external library); the unit factor OP = 96 / 25.4 maps
pixels to OFD millimetres.  XML serialization (xmltodict) and ZIP
packing/unpacking are external boundary libraries that round-trip the
attribute trees, so the package holds the trees themselves. -/

/-- The unit conversion factor of `OFDWrite.__init__`. -/
def OP : ℚ := 96 / 25.4

/-- Placeholder for `str(datetime.now())` (an external clock value whose
content nothing downstream reads). -/
def creationDateStub : String := "2026-10-12 00:00:00.000000"

/-- One MultiMedia entry of `build_document_res` (uuid-map branch):
name `Image_{uuid}.jpg`, carrying `res_uuid`. -/
def mmEntryW (uuid : String) : JNode := .obj (jobj [
  ("@ID", .num 0), ("@Type", .str "Image"),
  ("ofd:MediaFile", .str ("Image_" ++ uuid ++ ".jpg")),
  ("res_uuid", .str uuid)])

/-- `build_document`: one page stub per image, then the Document
template. -/
def buildDocumentW (imgLen : ℕ) (physicalBox : JNode) (s : CurId) :
    JObj × CurId :=
  let pages := (List.range imgLen).map (fun idx => JNode.obj (jobj [
    ("@ID", .str (Nat.repr (idx + 1))),
    ("@BaseLoc", .str ("Pages/Page_" ++ Nat.repr idx ++ "/Content.xml"))]))
  buildDocumentTemplate pages physicalBox s

/-- The content-template field list of `build_content_res` for one page
image (keyword order of the source call; boundary and CTM strings are
built from the millimetre dimensions). -/
def contentModsPil (idx : ℕ) (w h : ℚ) : List (String × JNode) :=
  [("ofd:PhysicalBox", .nums [0, 0, w, h]),
   ("ofd:ImageObject", .arr (jarr [JNode.obj (jobj [
      ("@ID", .num 0),
      ("@CTM", .nums [w, 0, 0, h, 0, 0]),
      ("@Boundary", .nums [0, 0, w, h]),
      ("res_uuid", .str (Nat.repr idx)),
      ("@ResourceID", .str "")])])),
   ("ofd:CGTransform", .arr .nil),
   ("ofd:PathObject", .arr .nil),
   ("ofd:TextObject", .arr .nil)]

/-- One page of `build_content_res` on the image-list branch. -/
def buildContentPagePil (idx : ℕ) (w h : ℚ) (s : CurId) :
    Option (JObj × CurId) :=
  buildContentTemplate (contentModsPil idx w h) s

/-- The `for idx, pil_img in enumerate(pil_img_list)` loop of
`build_content_res`. -/
def contentLoop (f : ℕ → (ℚ × ℚ) → CurId → Option (JObj × CurId)) :
    List (ℚ × ℚ) → ℕ → CurId → Option (List JObj × CurId)
  | [], _, s => some ([], s)
  | wh :: rest, idx, s =>
    match f idx wh s with
    | none => none
    | some ts =>
      match contentLoop f rest (idx + 1) ts.2 with
      | none => none
      | some ps => some (ts.1 :: ps.1, ps.2)

def buildContentResPil (pil : List (ℚ × ℚ)) (idx : ℕ) (s : CurId) :
    Option (List JObj × CurId) :=
  contentLoop (fun i wh st => buildContentPagePil i wh.1 wh.2 st) pil idx s

/-- The OFD package written by `OFDStructure.__call__`: the serialized
members keyed by their archive paths (trees in place of XML bytes). -/
structure OFDPackage where
  ofdXml : JObj
  documentXml : JObj
  documentResXml : JObj
  publicResXml : JObj
  pages : List JObj
  resNames : List String
deriving DecidableEq

/-- `OFDWrite.__call__` on a raw image list (given as pixel dimension
pairs), down to the packaged trees: a fresh allocator, then entrance,
document, public resources, document resources and one content page per
image, in the source's construction order; the document's MaxUnitID is
finalized from the allocator's last state during packaging.  An empty
image list falls into the PDF branch of the source and raises NameError
on the undefined pdf_info_list (`none`). -/
def ofdWriteImgCall (dims : List (ℕ × ℕ)) : Option OFDPackage :=
  match dims with
  | [] => none
  | d0 :: _ =>
    let pil := dims.map (fun d => ((d.1 : ℚ) / OP, (d.2 : ℚ) / OP))
    let n := dims.length
    let physBox : JNode := .nums [0, 0, (d0.1 : ℚ) / OP, (d0.2 : ℚ) / OP]
    let os1 := buildOFDTemplate creationDateStub CurId.start
    let os2 := buildDocumentW n physBox os1.2
    let os3 := buildPublicResTemplate [] os2.2
    let os4 := buildDocumentResTemplate
      (((List.range n).map Nat.repr).map mmEntryW) os3.2
    (buildContentResPil pil 0 os4.2).map (fun ps =>
      { ofdXml := os1.1,
        documentXml := updateMaxUnitId os2.1 ps.2,
        documentResXml := os4.1,
        publicResXml := os3.1,
        pages := ps.1,
        resNames := (List.range n).map
          (fun i => "Image_" ++ Nat.repr i ++ ".jpg") })

/-! ## ContentFileParser (parser_ofd/file_content_parser.py)

Each extraction loop is embedded with its own error behaviour: the text
loop has no handler (any exception is fatal), the line loop catches only
KeyError (a missing @Boundary skips the node, anything else is fatal),
the image loop has no handler at all. -/

/-- `float(...)` of a split numeric attribute: a `nums` value is a
space-joined numeric string and parses back to exactly its numbers, a
`str` value is split and parsed per token, anything else has no
`.split` (AttributeError). -/
def getNums : JNode → Option (List ℚ)
  | .nums l => some l
  | .str s => pyFloatList (pySplit ' ' s)
  | _ => none

/-- Python `float(v)` on an attribute value: numbers pass through, a
string parses as a decimal, a single-number `nums` string likewise;
a multi-number string or a dict/list raises. -/
def pyFloatOfNode : JNode → Option ℚ
  | .num q => some q
  | .str s => pyFloat s
  | .nums [q] => some q
  | .nums _ => none
  | .obj _ => none
  | .arr _ => none

/-- Python `d.get(k, default)` on an arbitrary value: AttributeError on
a non-dict receiver. -/
def pyGetD (n : JNode) (k : String) (d : JNode) : Option JNode :=
  match n with
  | .obj o => some (o.getD k d)
  | _ => none

/-- `ParameterParser.__call__` for the dict-typed keys used here
(FillColor / StrokeColor): the value if it is a dict, else a fresh
empty dict. -/
def paramOfd (key : String) (row : JObj) : JObj :=
  match row.get key with
  | some (.obj o) => o
  | _ => .nil

/-- `str(...)` of an optional attribute value (Python never raises
here; `str(None)` is the literal "None"; renderings of non-string
values are abstracted and are not exercised by the embedded trees). -/
def pyStrOf : Option JNode → String
  | none => "None"
  | some (.str s) => s
  | some (.num _) => ""
  | some (.nums _) => ""
  | some (.obj _) => ""
  | some (.arr _) => ""

/-- `color.split(" ")` on the @Value of a colour guard dict: a string
splits into its tokens (a `nums` value stands for the rendered tokens of
its numbers); a non-string @Value has no `.split` (AttributeError). -/
def colorSplit : JNode → Option (List String)
  | .str s => some (pySplit ' ' s)
  | .nums l => some (l.map (fun _ => ""))
  | _ => none

/-- The glyph-transform block captured by `fetch_cell_info`. -/
structure GlyphsInfo where
  glyphs : Option JNode
  glyphCount : Option JNode
  codeCount : Option JNode
  codePosition : Option JNode
deriving DecidableEq

/-- One text run record (`cell_d` of `fetch_cell_info`). -/
structure TextRec where
  id : JNode
  glyphs : Option GlyphsInfo
  pos : List ℚ
  clipsPos : Option (List ℚ)
  text : String
  font : JNode
  size : ℚ
  color : List String
  deltaY : JNode
  deltaX : JNode
  ctm : JNode
  x : JNode
  y : JNode
deriving DecidableEq

/-- `ContentFileParser.fetch_cell_info(row, TextObject)`. -/
def fetchCellInfo (row textObj : JObj) : Option TextRec :=
  match row.get "@ID" with
  | none => none
  | some idv =>
    let glyphStep : Option (Option GlyphsInfo) :=
      match row.get "ofd:CGTransform" with
      | some v =>
        if pyTruthy v then
          match v with
          | .obj g => some (some ⟨g.get "ofd:Glyphs", g.get "@GlyphCount",
                                  g.get "@CodeCount", g.get "@CodePosition"⟩)
          | _ => none
        else some none
      | none => some none
    match glyphStep with
    | none => none
    | some gly =>
      match row.get "@Boundary" with
      | none => none
      | some b =>
        match getNums b with
        | none => none
        | some pos =>
          let c1 := row.getD "ofd:Clips" (.obj .nil)
          match pyGetD c1 "ofd:Clip" (.obj .nil) with
          | none => none
          | some c2 =>
            match pyGetD c2 "ofd:Area" (.obj .nil) with
            | none => none
            | some c3 =>
              match pyGetD c3 "ofd:Path" (.obj .nil) with
              | none => none
              | some c4 =>
                let clipStep : Option (Option (List ℚ)) :=
                  if pyTruthy c4 then
                    match pyGetD c4 "@Boundary" (.str "") with
                    | none => none
                    | some cb =>
                      match getNums cb with
                      | none => none
                      | some cl => some (some cl)
                  else some none
                match clipStep with
                | none => none
                | some clips =>
                  match row.get "@Font" with
                  | none => none
                  | some fontv =>
                    match row.get "@Size" with
                    | none => none
                    | some sv =>
                      match pyFloatOfNode sv with
                      | none => none
                      | some size =>
                        match colorSplit
                            ((paramOfd "ofd:FillColor" row).getD "@Value"
                              (.str "0 0 0")) with
                        | none => none
                        | some color =>
                          some { id := idv, glyphs := gly, pos := pos,
                                 clipsPos := clips,
                                 text := pyStrOf (textObj.get "#text"),
                                 font := fontv, size := size, color := color,
                                 deltaY := textObj.getD "@DeltaY" (.str ""),
                                 deltaX := textObj.getD "@DeltaX" (.str ""),
                                 ctm := row.getD "@CTM" (.str ""),
                                 x := textObj.getD "@X" (.str ""),
                                 y := textObj.getD "@Y" (.str "") }

/-- The per-TextCode loop when `ofd:TextCode` is a list: runs with no
`#text` are skipped, a non-dict entry raises. -/
def textCodeList (row : JObj) : List JNode → Option (List TextRec)
  | [] => some []
  | tc :: rest =>
    match tc with
    | .obj tco =>
      let keep :=
        match tco.get "#text" with
        | some t => pyTruthy t
        | none => false
      if keep then
        match fetchCellInfo row tco with
        | none => none
        | some r =>
          match textCodeList row rest with
          | none => none
          | some rs => some (r :: rs)
      else textCodeList row rest
    | _ => none

/-- One found `ofd:TextObject` row of the text loop. -/
def textRowStep (row : JNode) : Option (List TextRec) :=
  match row with
  | .obj ro =>
    match ro.getD "ofd:TextCode" (.obj .nil) with
    | .arr tcs => textCodeList ro tcs.toList
    | .obj tco =>
      let keep :=
        match tco.get "#text" with
        | some t => pyTruthy t
        | none => false
      if keep then
        match fetchCellInfo ro tco with
        | none => none
        | some r => some [r]
      else some []
    | _ => some []
  | _ => none

/-- The whole text loop over the found rows. -/
def textPhase : List JNode → Option (List TextRec)
  | [] => some []
  | row :: rest =>
    match textRowStep row with
    | none => none
    | some rs =>
      match textPhase rest with
      | none => none
      | some more => some (rs ++ more)

/-- One line/path record (`line_d`). -/
structure LineRec where
  id : JNode
  pos : List ℚ
  lineWidth : JNode
  abbreviatedData : JNode
  fillColor : List String
  strokeColor : JNode
deriving DecidableEq

/-- Outcome of one iteration of the line loop: a record, a skip (the
caught KeyError for a missing @Boundary) or an uncaught exception. -/
inductive LineStep where
  | ok (r : LineRec)
  | skip
  | err
deriving DecidableEq

/-- One found `ofd:PathObject` row of the line loop. -/
def lineRowStep (nd : JNode) : LineStep :=
  match nd with
  | .obj o =>
    let idv := o.getD "@ID" (.str "")
    match o.get "@Boundary" with
    | none => .skip
    | some b =>
      match getNums b with
      | none => .err
      | some pos =>
        match colorSplit
            ((paramOfd "ofd:FillColor" o).getD "@Value" (.str "0 0 0")) with
        | none => .err
        | some fill =>
          .ok { id := idv, pos := pos,
                lineWidth := o.getD "@LineWidth" (.str ""),
                abbreviatedData := o.getD "ofd:AbbreviatedData" (.str ""),
                fillColor := fill,
                strokeColor := (paramOfd "ofd:StrokeColor" o).getD "@Value"
                  (.str "0 0 0") }
  | _ => .err

/-- The whole line loop over the found rows. -/
def linePhase : List JNode → Option (List LineRec)
  | [] => some []
  | nd :: rest =>
    match lineRowStep nd with
    | .err => none
    | .skip => linePhase rest
    | .ok r =>
      match linePhase rest with
      | none => none
      | some rs => some (r :: rs)

/-- One image record (`img_d`): CTM, the (sic) `ID` key looked up
without its `@`, resource id, boundary. -/
structure ImgRec where
  ctm : JNode
  id : JNode
  resourceID : JNode
  pos : List ℚ
deriving DecidableEq

/-- One found `ofd:ImageObject` row of the image loop (no handler: a
missing @Boundary or unparseable boundary or non-dict row raises). -/
def imgRowStep (nd : JNode) : Option ImgRec :=
  match nd with
  | .obj o =>
    match o.get "@Boundary" with
    | none => none
    | some b =>
      match getNums b with
      | none => none
      | some pos =>
        some { ctm := o.getD "@CTM" (.str ""), id := o.getD "ID" (.str ""),
               resourceID := o.getD "@ResourceID" (.str ""), pos := pos }
  | _ => none

/-- The whole image loop over the found rows. -/
def imgPhase : List JNode → Option (List ImgRec)
  | [] => some []
  | nd :: rest =>
    match imgRowStep nd with
    | none => none
    | some r =>
      match imgPhase rest with
      | none => none
      | some rs => some (r :: rs)

/-- The parsed content of one page (`content_d`). -/
structure ContentRec where
  text_list : List TextRec
  img_list : List ImgRec
  line_list : List LineRec
deriving DecidableEq

/-- `ContentFileParser.__call__` on one page (or template) tree. -/
def contentFileCall (tree : JNode) : Option ContentRec :=
  match textPhase (recursionExt "ofd:TextObject" tree) with
  | none => none
  | some ts =>
    match linePhase (recursionExt "ofd:PathObject" tree) with
    | none => none
    | some ls =>
      match imgPhase (recursionExt "ofd:ImageObject" tree) with
      | none => none
      | some imgs => some { text_list := ts, img_list := imgs, line_list := ls }

/-! ## Facts about the decimal rendering and the uuid map -/

theorem toDigitsCore_length_ge (b : ℕ) :
    ∀ (fuel n : ℕ) (acc : List Char),
      acc.length ≤ (Nat.toDigitsCore b fuel n acc).length := by
  intro fuel
  induction fuel with
  | zero => intro n acc; simp [Nat.toDigitsCore]
  | succ fuel ih =>
    intro n acc
    rw [Nat.toDigitsCore]
    by_cases h : n / b = 0
    · rw [if_pos h]
      simp
    · rw [if_neg h]
      calc acc.length ≤ (Nat.digitChar (n % b) :: acc).length := by simp
        _ ≤ _ := ih _ _

/-- A decimal rendering is never the empty string. -/
theorem natRepr_ne_empty (n : ℕ) : Nat.repr n ≠ "" := by
  intro h
  have hd : (Nat.repr n).data = [] := by rw [h]
  rw [Nat.repr] at hd
  have hlen : 1 ≤ (Nat.toDigits 10 n).length := by
    rw [Nat.toDigits, Nat.toDigitsCore]
    by_cases h10 : n / 10 = 0
    · rw [if_pos h10]
      simp
    · rw [if_neg h10]
      calc 1 = [Nat.digitChar (n % 10)].length := by simp
        _ ≤ _ := toDigitsCore_length_ge 10 n (n / 10) _
  have : (Nat.toDigits 10 n) = [] := hd
  rw [this] at hlen
  simp at hlen

/-- The Boolean form used by the truthiness checks. -/
theorem natRepr_beq_empty (n : ℕ) : (Nat.repr n == "") = false :=
  beq_eq_false_iff_ne.mpr (natRepr_ne_empty n)

theorem lookupPair_setPair (k' k v : String) (m : List (String × String)) :
    lookupPair k' (setPair k v m) =
      if k = k' then some v else lookupPair k' m := by
  induction m with
  | nil =>
    by_cases h : k = k'
    · simp [setPair, lookupPair, h]
    · simp [setPair, lookupPair, h]
  | cons p r ih =>
    obtain ⟨pk, pv⟩ := p
    by_cases hpk : pk = k
    · subst hpk
      by_cases h : pk = k'
      · simp [setPair, lookupPair, h]
      · simp [setPair, lookupPair, h]
    · by_cases h : pk = k'
      · subst h
        have hk : ¬ k = pk := fun hh => hpk hh.symm
        simp [setPair, lookupPair, hpk, hk, ih]
      · simp [setPair, lookupPair, hpk, h, ih]

/-- Read back the packaged content pages (unpack and per-page content
parse) and keep every recovered ImageObject's boundary. -/
def readBackImgBoxes : List JObj → Option (List (List (List ℚ)))
  | [] => some []
  | p :: r =>
    match contentFileCall (.obj p) with
    | none => none
    | some c =>
      match readBackImgBoxes r with
      | none => none
      | some rs => some (c.img_list.map (fun rec => rec.pos) :: rs)

/-- One image-list content page, built with any allocator state whose
uuid map has the page's uuid recorded, parses back to exactly one
ImageObject with boundary `[0, 0, w, h]`, and leaves the uuid map
unchanged. -/
theorem contentPagePil_spec (idx : ℕ) (w h : ℚ) (s : CurId) (v : String)
    (hu : lookupPair (Nat.repr idx) s.uuid_map = some v) :
    (buildContentPagePil idx w h s).map
      (fun ts => (ts.2.uuid_map,
        (contentFileCall (JNode.obj ts.1)).map
          (fun c => c.img_list.map (fun r => r.pos))))
      = some (s.uuid_map, some [[0, 0, w, h]]) := by
  obtain ⟨sid, sused, smap⟩ := s
  have hb := natRepr_beq_empty idx
  cases sused <;>
    simp [buildContentPagePil, buildContentTemplate, tplAssemble, contentModsPil,
      contentSkeleton, jobj, jarr, modifyO, modifyA, contentIdKeys,
      genIdO, genIdAssign, genIdRecurse, recUuid, CurId.get_id,
      JObj.set, JObj.get, JObj.getD, JObj.pop, corrO, corrAssign, corrRecurse,
      pyTruthy, hb, hu, contentFileCall, recursionExt, rExtO, rExtA,
      JArr.toList, textPhase, linePhase, imgPhase, textRowStep, imgRowStep,
      getNums]

/-- The MultiMedia id-assignment loop of the DocumentRes `gen_id`
override records every (non-empty) uuid of the processed entries in the
allocator's uuid map and keeps every previously present key. -/
theorem genIdAssign_mm (uuids : List String) :
    ∀ (s : CurId), (∀ x ∈ uuids, x ≠ "") →
      (∀ x w, lookupPair x s.uuid_map = some w →
        ∃ w', lookupPair x
          (genIdAssign true (jarr (uuids.map mmEntryW)) s).2.uuid_map = some w') ∧
      (∀ x ∈ uuids,
        ∃ w, lookupPair x
          (genIdAssign true (jarr (uuids.map mmEntryW)) s).2.uuid_map = some w) := by
  induction uuids with
  | nil =>
    intro s _
    constructor
    · intro x w hw
      exact ⟨w, by simpa [jarr, genIdAssign] using hw⟩
    · intro x hx
      exact absurd hx (List.not_mem_nil x)
  | cons u us ih =>
    intro s hne
    have hbu : (u == "") = false :=
      beq_eq_false_iff_ne.mpr (hne u (List.mem_cons_self u us))
    have hne' : ∀ x ∈ us, x ≠ "" := fun x hx => hne x (List.mem_cons_of_mem _ hx)
    obtain ⟨sid, sused, smap⟩ := s
    cases sused with
    | false =>
      obtain ⟨r1, s3, hrec⟩ : ∃ r1 s3,
          genIdAssign true (jarr (us.map mmEntryW))
            ⟨sid, true, setPair u (Nat.repr sid) smap⟩ = (r1, s3) := ⟨_, _, rfl⟩
      have heval : (genIdAssign true (jarr ((u :: us).map mmEntryW))
          ⟨sid, false, smap⟩).2 = s3 := by
        simp [List.map_cons, jarr, genIdAssign, mmEntryW, jobj, CurId.get_id,
          JObj.set, recUuid, JObj.get, pyTruthy, hbu, CurId.add_uuid_map, hrec]
      have ihs := ih ⟨sid, true, setPair u (Nat.repr sid) smap⟩ hne'
      rw [hrec] at ihs
      rw [heval]
      constructor
      · intro x w hw
        by_cases hx : u = x
        · apply ihs.1 x (Nat.repr sid)
          rw [lookupPair_setPair, if_pos hx]
        · apply ihs.1 x w
          rw [lookupPair_setPair, if_neg hx]
          exact hw
      · intro x hx
        rcases List.mem_cons.mp hx with hx | hx
        · subst hx
          apply ihs.1 x (Nat.repr sid)
          rw [lookupPair_setPair, if_pos rfl]
        · exact ihs.2 x hx
    | true =>
      obtain ⟨r1, s3, hrec⟩ : ∃ r1 s3,
          genIdAssign true (jarr (us.map mmEntryW))
            ⟨sid + 1, true, setPair u (Nat.repr (sid + 1)) smap⟩ = (r1, s3) :=
        ⟨_, _, rfl⟩
      have heval : (genIdAssign true (jarr ((u :: us).map mmEntryW))
          ⟨sid, true, smap⟩).2 = s3 := by
        simp [List.map_cons, jarr, genIdAssign, mmEntryW, jobj, CurId.get_id,
          JObj.set, recUuid, JObj.get, pyTruthy, hbu, CurId.add_uuid_map, hrec]
      have ihs := ih ⟨sid + 1, true, setPair u (Nat.repr (sid + 1)) smap⟩ hne'
      rw [hrec] at ihs
      rw [heval]
      constructor
      · intro x w hw
        by_cases hx : u = x
        · apply ihs.1 x (Nat.repr (sid + 1))
          rw [lookupPair_setPair, if_pos hx]
        · apply ihs.1 x w
          rw [lookupPair_setPair, if_neg hx]
          exact hw
      · intro x hx
        rcases List.mem_cons.mp hx with hx | hx
        · subst hx
          apply ihs.1 x (Nat.repr (sid + 1))
          rw [lookupPair_setPair, if_pos rfl]
        · exact ihs.2 x hx

/-- The DrawParam pass of the DocumentRes `gen_id` finds nothing inside
the MultiMedia entries and leaves both tree and allocator unchanged. -/
theorem genIdRecurse_drawparam (uuids : List String) :
    ∀ s, genIdRecurse true "ofd:DrawParam" (jarr (uuids.map mmEntryW)) s =
      (jarr (uuids.map mmEntryW), s) := by
  induction uuids with
  | nil => intro s; simp [jarr, genIdRecurse]
  | cons u us ih =>
    intro s
    simp [jarr, List.map_cons, genIdRecurse, mmEntryW, jobj, genIdO, ih]

set_option maxHeartbeats 1600000 in
/-- Building a DocumentRes template over MultiMedia entries with
non-empty uuids records every uuid in the allocator and keeps every
previously recorded key. -/
theorem documentResW_uuid (uuids : List String) (s : CurId)
    (hne : ∀ x ∈ uuids, x ≠ "") :
    (∀ x w, lookupPair x s.uuid_map = some w →
      ∃ w', lookupPair x
        (buildDocumentResTemplate (uuids.map mmEntryW) s).2.uuid_map = some w') ∧
    (∀ x ∈ uuids,
      ∃ w, lookupPair x
        (buildDocumentResTemplate (uuids.map mmEntryW) s).2.uuid_map = some w) := by
  have heval : (buildDocumentResTemplate (uuids.map mmEntryW) s).2 =
      (genIdAssign true (jarr (uuids.map mmEntryW)) s).2 := by
    simp [buildDocumentResTemplate, tplAssemble, documentResSkeleton, jobj, jarr,
      modifyO, modifyA, genIdO, genIdRecurse_drawparam]
  rw [heval]
  exact genIdAssign_mm uuids s hne

/-- The content-page loop of the image-list write path: with every page's
uuid recorded in the allocator, every page builds, and reading the pages
back recovers exactly one ImageObject per page with boundary
`[0, 0, w, h]` in millimetres. -/
theorem buildContentResPil_spec (pil : List (ℚ × ℚ)) :
    ∀ (idx0 : ℕ) (s : CurId),
      (∀ j, idx0 ≤ j → j < idx0 + pil.length →
        ∃ v, lookupPair (Nat.repr j) s.uuid_map = some v) →
      ∃ pages s1, buildContentResPil pil idx0 s = some (pages, s1) ∧
        readBackImgBoxes pages =
          some (pil.map (fun wh => [[0, 0, wh.1, wh.2]])) := by
  induction pil with
  | nil => intro idx0 s _; exact ⟨[], s, rfl, rfl⟩
  | cons wh rest ih =>
    intro idx0 s hu
    obtain ⟨v, hv⟩ := hu idx0 (le_refl _) (by simp)
    have hpage := contentPagePil_spec idx0 wh.1 wh.2 s v hv
    match hbuild : buildContentPagePil idx0 wh.1 wh.2 s with
    | none =>
      rw [hbuild] at hpage
      exact absurd hpage (by simp)
    | some ts =>
      rw [hbuild] at hpage
      simp only [Option.map_some', Option.some.injEq, Prod.mk.injEq] at hpage
      obtain ⟨hmap, hparse⟩ := hpage
      have hu' : ∀ j, idx0 + 1 ≤ j → j < (idx0 + 1) + rest.length →
          ∃ v, lookupPair (Nat.repr j) ts.2.uuid_map = some v := by
        intro j hj1 hj2
        rw [hmap]
        refine hu j (by omega) ?_
        simp only [List.length_cons]
        omega
      obtain ⟨pages, s2, hrec, hread⟩ := ih (idx0 + 1) ts.2 hu'
      refine ⟨ts.1 :: pages, s2, ?_, ?_⟩
      · simp only [buildContentResPil] at hrec ⊢
        rw [contentLoop, hbuild]
        dsimp only
        rw [hrec]
      · obtain ⟨c, hc, hcpos⟩ := Option.map_eq_some'.mp hparse
        rw [readBackImgBoxes, hc]
        dsimp only
        rw [hread]
        simp [hcpos]

theorem readBackImgBoxes_length (ps : List JObj) :
    ∀ xs, readBackImgBoxes ps = some xs → ps.length = xs.length := by
  induction ps with
  | nil =>
    intro xs h
    simp only [readBackImgBoxes, Option.some.injEq] at h
    rw [← h]
    rfl
  | cons p r ih =>
    intro xs h
    rw [readBackImgBoxes] at h
    match hc : contentFileCall (.obj p) with
    | none => rw [hc] at h; exact Option.noConfusion h
    | some c =>
      rw [hc] at h
      dsimp only at h
      match hr : readBackImgBoxes r with
      | none => rw [hr] at h; exact Option.noConfusion h
      | some rs =>
        rw [hr] at h
        simp only [Option.some.injEq] at h
        rw [← h]
        simp [ih rs hr]

/-- C7: writing any non-empty raw image list (given by pixel dimensions)
to an OFD package and reading it back (unpack, then per-page content
parse) recovers exactly one ImageObject per input image, with boundary
`[0, 0, width / OP, height / OP]`, OP = 96 / 25.4. -/
theorem claim_C7 (dims : List (ℕ × ℕ)) (hne : dims ≠ []) :
    ∃ pkg, ofdWriteImgCall dims = some pkg ∧
      pkg.pages.length = dims.length ∧
      readBackImgBoxes pkg.pages =
        some (dims.map (fun d => [[0, 0, (d.1 : ℚ) / OP, (d.2 : ℚ) / OP]])) := by
  match dims with
  | [] => exact absurd rfl hne
  | d0 :: drest =>
    rw [ofdWriteImgCall]
    have hner : ∀ x ∈ (List.range (d0 :: drest).length).map Nat.repr, x ≠ "" := by
      intro x hx
      obtain ⟨j, _, rfl⟩ := List.mem_map.mp hx
      exact natRepr_ne_empty j
    have hres := documentResW_uuid ((List.range (d0 :: drest).length).map Nat.repr)
      (buildPublicResTemplate []
        (buildDocumentW (d0 :: drest).length
          (.nums [0, 0, (d0.1 : ℚ) / OP, (d0.2 : ℚ) / OP])
          (buildOFDTemplate creationDateStub CurId.start).2).2).2 hner
    have hu : ∀ j, 0 ≤ j →
        j < 0 + ((d0 :: drest).map (fun d => ((d.1 : ℚ) / OP, (d.2 : ℚ) / OP))).length →
        ∃ v, lookupPair (Nat.repr j)
          (buildDocumentResTemplate
            (((List.range (d0 :: drest).length).map Nat.repr).map mmEntryW)
            (buildPublicResTemplate []
              (buildDocumentW (d0 :: drest).length
                (.nums [0, 0, (d0.1 : ℚ) / OP, (d0.2 : ℚ) / OP])
                (buildOFDTemplate creationDateStub CurId.start).2).2).2).2.uuid_map
          = some v := by
      intro j _ hj
      apply hres.2
      apply List.mem_map_of_mem
      apply List.mem_range.mpr
      simpa using hj
    obtain ⟨pages, s5, hcontent, hread⟩ := buildContentResPil_spec
      ((d0 :: drest).map (fun d => ((d.1 : ℚ) / OP, (d.2 : ℚ) / OP))) 0
      (buildDocumentResTemplate
        (((List.range (d0 :: drest).length).map Nat.repr).map mmEntryW)
        (buildPublicResTemplate []
          (buildDocumentW (d0 :: drest).length
            (.nums [0, 0, (d0.1 : ℚ) / OP, (d0.2 : ℚ) / OP])
            (buildOFDTemplate creationDateStub CurId.start).2).2).2).2 hu
    rw [hcontent, Option.map_some']
    refine ⟨_, rfl, ?_, ?_⟩
    · dsimp only
      have hlen := readBackImgBoxes_length pages _ hread
      rw [hlen]
      simp
    · dsimp only
      rw [hread]
      simp [Function.comp]

/-- Witness for C7 on a concrete one-image list (96 x 192 pixels). -/
theorem claim_C7_witness :
    ([(96, 192)] : List (ℕ × ℕ)) ≠ [] ∧
    ∃ pkg, ofdWriteImgCall [(96, 192)] = some pkg ∧
      pkg.pages.length = 1 ∧
      readBackImgBoxes pkg.pages =
        some [[[0, 0, (96 : ℚ) / OP, (192 : ℚ) / OP]]] := by
  have hne : ([(96, 192)] : List (ℕ × ℕ)) ≠ [] := by simp
  obtain ⟨pkg, h1, h2, h3⟩ := claim_C7 [(96, 192)] hne
  refine ⟨hne, pkg, h1, by simpa using h2, by simpa using h3⟩

/-- The ImageObject entry of the C5 scenario: a content page whose
ImageObject list has one entry carrying `res_uuid = "7"`. -/
def imgEntryC5 : JNode := .obj (jobj [
  ("@ID", .num 0), ("@Boundary", .nums [0, 0, 10, 10]),
  ("res_uuid", .str "7"), ("@ResourceID", .str "")])

/-- The content-template fields of the C5 scenario. -/
def contentModsC5 : List (String × JNode) :=
  [("ofd:PhysicalBox", .str "0 0 210 140"),
   ("ofd:ImageObject", .arr (jarr [imgEntryC5])),
   ("ofd:CGTransform", .arr .nil),
   ("ofd:PathObject", .arr .nil),
   ("ofd:TextObject", .arr .nil)]

/-- C5: in any write session (any allocator state), building a
DocumentRes template with one MultiMedia entry carrying res_uuid "7"
records the freshly allocated id N (the first id the build hands out)
against uuid "7"; a Content template built afterwards in the same
session whose ImageObject list carries res_uuid "7" ends up with that
entry's @ResourceID attribute set to N and the res_uuid carrier
removed. -/
theorem claim_C5 (s : CurId) :
    lookupPair "7" (buildDocumentResTemplate [mmEntryW "7"] s).2.uuid_map
        = some (Nat.repr (s.get_id).1) ∧
    (buildContentTemplate contentModsC5
        (buildDocumentResTemplate [mmEntryW "7"] s).2).map
        (fun ts => (recursionExt "ofd:ImageObject" (JNode.obj ts.1)).map
          (fun nd => match nd with
            | .obj e => (e.get "@ResourceID", e.get "res_uuid")
            | _ => (none, none)))
      = some [(some (.str (Nat.repr (s.get_id).1)), none)] := by
  obtain ⟨sid, sused, smap⟩ := s
  cases sused <;>
    simp [mmEntryW, buildDocumentResTemplate, tplAssemble, documentResSkeleton,
      jobj, jarr, modifyO, modifyA, genIdO, genIdAssign, genIdRecurse, recUuid,
      CurId.get_id, CurId.add_uuid_map, JObj.set, JObj.get, JObj.getD, JObj.pop,
      pyTruthy, lookupPair_setPair, buildContentTemplate, contentModsC5,
      imgEntryC5, contentSkeleton, contentIdKeys, corrO, corrAssign, corrRecurse,
      recursionExt, rExtO, rExtA, JArr.toList, lookupPair, natRepr_beq_empty]

/-- C4: a fresh allocator's first id request returns 1 without
incrementing (the counter is still 1 afterwards); three further requests
return 2, 3, 4; the max-unit-id hint after those four requests is 5; and
in general every request on a used allocator increments the counter and
then returns it. -/
theorem claim_C4 :
    (CurId.start.get_id).1 = 1 ∧
    (CurId.start.get_id).2.id = 1 ∧
    ((CurId.start.get_id).2.get_id).1 = 2 ∧
    (((CurId.start.get_id).2.get_id).2.get_id).1 = 3 ∧
    ((((CurId.start.get_id).2.get_id).2.get_id).2.get_id).1 = 4 ∧
    ((((CurId.start.get_id).2.get_id).2.get_id).2.get_id).2.get_max_id = 5 ∧
    (∀ s : CurId, s.used = true →
      s.get_id = (s.id + 1, ⟨s.id + 1, true, s.uuid_map⟩)) := by
  refine ⟨by decide, by decide, by decide, by decide, by decide, by decide, ?_⟩
  intro s hs
  obtain ⟨i, u, m⟩ := s
  cases hs
  simp [CurId.get_id]

/-- Witness for C4's general clause at a concrete used allocator. -/
theorem claim_C4_witness :
    (⟨7, true, []⟩ : CurId).used = true ∧
    (⟨7, true, []⟩ : CurId).get_id = (8, ⟨8, true, []⟩) :=
  ⟨rfl, claim_C4.2.2.2.2.2.2 ⟨7, true, []⟩ rfl⟩

/-- Decidable well-formedness of a found ImageObject node: a dict whose
`@Boundary` parses as a list of floats (the condition under which the
image loop cannot raise). -/
def imgNodeOk (nd : JNode) : Bool :=
  match nd with
  | .obj o =>
    match o.get "@Boundary" with
    | some b => (getNums b).isSome
    | none => false
  | _ => false

theorem imgPhase_ok (l : List JNode) (h : ∀ nd ∈ l, imgNodeOk nd = true) :
    ∃ rs, imgPhase l = some rs ∧ rs.length = l.length := by
  induction l with
  | nil => exact ⟨[], rfl, rfl⟩
  | cons nd rest ih =>
    have hnd := h nd (List.mem_cons_self _ _)
    obtain ⟨rs, hrs, hlen⟩ := ih (fun x hx => h x (List.mem_cons_of_mem _ hx))
    cases nd with
    | obj o =>
      rw [imgNodeOk] at hnd
      match hb : o.get "@Boundary" with
      | none => rw [hb] at hnd; exact Bool.noConfusion hnd
      | some b =>
        rw [hb] at hnd
        dsimp only at hnd
        match hn : getNums b with
        | none => rw [hn] at hnd; exact Bool.noConfusion hnd
        | some bs =>
          refine ⟨{ ctm := o.getD "@CTM" (.str ""), id := o.getD "ID" (.str ""),
                    resourceID := o.getD "@ResourceID" (.str ""),
                    pos := bs } :: rs, ?_, ?_⟩
          · rw [imgPhase, imgRowStep, hb]
            dsimp only
            rw [hn]
            dsimp only
            rw [hrs]
          · simp [hlen]
    | str s => simp [imgNodeOk] at hnd
    | num q => simp [imgNodeOk] at hnd
    | nums l2 => simp [imgNodeOk] at hnd
    | arr a => simp [imgNodeOk] at hnd

/-- C9 (amended): extracting the image list of a page content tree
cannot fail provided every found ImageObject node is a dict carrying a
`@Boundary` attribute whose tokens parse as floats; CTM, id and
resource-id use defaulted lookups and cannot fail, so with parseable
boundaries the loop yields one record per found node. -/
theorem claim_C9 (tree : JNode)
    (h : ∀ nd ∈ recursionExt "ofd:ImageObject" tree, imgNodeOk nd = true) :
    ∃ rs, imgPhase (recursionExt "ofd:ImageObject" tree) = some rs ∧
      rs.length = (recursionExt "ofd:ImageObject" tree).length :=
  imgPhase_ok _ h

/-- C9 counterexample: an ImageObject node without `@Boundary` is found
by the extraction walk, and the image loop (and with it the whole
content parse) raises instead of producing a record. -/
theorem claim_C9_counterexample :
    recursionExt "ofd:ImageObject" (JNode.obj (jobj [("ofd:ImageObject",
        JNode.obj (jobj [("@ID", JNode.str "3")]))]))
      = [JNode.obj (jobj [("@ID", JNode.str "3")])] ∧
    imgPhase (recursionExt "ofd:ImageObject" (JNode.obj (jobj [("ofd:ImageObject",
        JNode.obj (jobj [("@ID", JNode.str "3")]))]))) = none ∧
    contentFileCall (JNode.obj (jobj [("ofd:ImageObject",
        JNode.obj (jobj [("@ID", JNode.str "3")]))])) = none := by
  refine ⟨by decide, by decide, by decide⟩

/-- Witness for the amended C9 at a concrete well-formed tree. -/
theorem claim_C9_witness :
    (∀ nd ∈ recursionExt "ofd:ImageObject" (JNode.obj (jobj [("ofd:ImageObject",
        JNode.arr (jarr [JNode.obj (jobj [("@Boundary", JNode.nums [0, 0, 5, 5])])]))])),
      imgNodeOk nd = true) ∧
    ∃ rs, imgPhase (recursionExt "ofd:ImageObject" (JNode.obj (jobj [("ofd:ImageObject",
        JNode.arr (jarr [JNode.obj (jobj [("@Boundary", JNode.nums [0, 0, 5, 5])])]))])))
        = some rs ∧
      rs.length = (recursionExt "ofd:ImageObject" (JNode.obj (jobj [("ofd:ImageObject",
        JNode.arr (jarr [JNode.obj (jobj [("@Boundary", JNode.nums [0, 0, 5, 5])])]))]))).length :=
  ⟨by decide, claim_C9 _ (by decide)⟩

/-! ## OFDParser.parser, template-page merge fragment
(parser_ofd/ofd_parser.py lines 455-529)

The page loop fills an insertion-ordered dict `page_info_d` keyed by the
page number derived from the first digit run of the page's path (falling
back to the loop index) and leaves `pg_no` bound to the last page's
number; the template loop then checks `tpl_no in page_info_d` but merges
and sorts `page_info_d[pg_no]`. -/

/-- `int(re.search(r"\d+", s).group())`: the value of the first maximal
digit run of `s`, if any. -/
def firstNat (s : String) : Option ℕ :=
  firstNatAux s.data
where firstNatAux : List Char → Option ℕ
  | [] => none
  | c :: r =>
    if c.isDigit then
      some (((c :: r).takeWhile Char.isDigit).foldl
        (fun a ch => a * 10 + (ch.toNat - 48)) 0)
    else firstNatAux r

/-- Lookup in the `page_info_d` dict. -/
def lookupN (k : ℕ) : List (ℕ × ContentRec) → Option ContentRec
  | [] => none
  | (k', v) :: r => if k' = k then some v else lookupN k r

/-- Assignment `page_info_d[k] = v`. -/
def setN (k : ℕ) (v : ContentRec) : List (ℕ × ContentRec) → List (ℕ × ContentRec)
  | [] => [(k, v)]
  | (k', v') :: r => if k' = k then (k, v) :: r else (k', v') :: setN k v r

/-- The Python tuple order on `(float(pos[1]), float(pos[0]))`. -/
def posKeyLe (a b : List ℚ) : Bool :=
  decide (a.getD 1 0 < b.getD 1 0) ||
    (decide (a.getD 1 0 = b.getD 1 0) && decide (a.getD 0 0 ≤ b.getD 0 0))

/-- Stable insertion of `a` after every already-sorted element whose key
is not greater (Python's sort is stable). -/
def insertByPos {α : Type} (pos : α → List ℚ) (a : α) : List α → List α
  | [] => [a]
  | b :: r =>
    if posKeyLe (pos b) (pos a) then b :: insertByPos pos a r
    else a :: b :: r

/-- `list.sort(key=lambda t: (float(t["pos"][1]), float(t["pos"][0])))`,
guarded: an item whose pos has fewer than two entries raises IndexError
inside the key function. -/
def pySortPos {α : Type} (pos : α → List ℚ) (l : List α) : Option (List α) :=
  if l.all (fun a => 2 ≤ (pos a).length) then
    some (l.foldl (fun acc x => insertByPos pos x acc) [])
  else none

/-- The matched-template merge body: extend then sort each of the three
content lists, in source order (text, image, line). -/
def mergeContent (base tpl : ContentRec) : Option ContentRec :=
  match pySortPos (fun t => t.pos) (base.text_list ++ tpl.text_list) with
  | none => none
  | some ts =>
    match pySortPos (fun t => t.pos) (base.img_list ++ tpl.img_list) with
    | none => none
    | some imgs =>
      match pySortPos (fun t => t.pos) (base.line_list ++ tpl.line_list) with
      | none => none
      | some ls => some { text_list := ts, img_list := imgs, line_list := ls }

/-- The page loop: build `page_info_d` and the final value of `pg_no`. -/
def pagesPhaseAux : List (String × ContentRec) → ℕ →
    List (ℕ × ContentRec) → Option ℕ → List (ℕ × ContentRec) × Option ℕ
  | [], _, d, last => (d, last)
  | pc :: r, idx, d, _ =>
    let pg := (firstNat pc.1).getD idx
    pagesPhaseAux r (idx + 1) (setN pg pc.2 d) (some pg)

/-- The template loop: for a matched template number, the source merges
into `page_info_d[pg_no]` (the last page's number), not
`page_info_d[tpl_no]`; an unmatched template assigns the dict entry and
then calls `.sort()` on the dict itself (AttributeError, `none`). -/
def tplPhase : List (String × ContentRec) → ℕ → List (ℕ × ContentRec) →
    Option ℕ → Option (List (ℕ × ContentRec))
  | [], _, d, _ => some d
  | pt :: r, idx, d, lastPg =>
    let tn := (firstNat pt.1).getD idx
    match lookupN tn d with
    | some _ =>
      match lastPg with
      | none => none
      | some pg =>
        match lookupN pg d with
        | none => none
        | some base =>
          match mergeContent base pt.2 with
          | none => none
          | some merged => tplPhase r (idx + 1) (setN pg merged d) lastPg
    | none => none

/-- The page-then-template fragment of `OFDParser.parser`. -/
def parserMergeTpls (pages tpls : List (String × ContentRec)) :
    Option (List (ℕ × ContentRec)) :=
  let dl := pagesPhaseAux pages 0 [] none
  tplPhase tpls 0 dl.1 dl.2

/-- C6 (divergence witness): with parsed pages numbered 0 and 1 and a
template page numbered 0, the template's image content is merged into
page 1 (the last page bound to the stale loop variable `pg_no`), while
the matching page 0 is left unchanged - against the claim that the
merge lands on the page whose number matches the template's. -/
theorem claim_C6_divergence :
    parserMergeTpls
      [("Pages/Page_0/Content.xml", ⟨[], [], []⟩),
       ("Pages/Page_1/Content.xml", ⟨[], [], []⟩)]
      [("Tpls/Tpl_0/Content.xml",
        ⟨[], [⟨.str "", .str "", .str "", [0, 0, 1, 1]⟩], []⟩)]
      = some [(0, ⟨[], [], []⟩),
              (1, ⟨[], [⟨.str "", .str "", .str "", [0, 0, 1, 1]⟩], []⟩)] := by
  decide

/-! ## PathParser (parser_ofd/path_parser.py), posix branch

`os.path` functions are modelled with CPython's posixpath semantics
(`os.name != "nt"`); the single-character `str.replace` of `format_path`
is a character map. -/

/-- `os.path.isabs` (posix): starts with a slash. -/
def pyIsAbs (p : String) : Bool :=
  match p.data with
  | '/' :: _ => true
  | _ => false

/-- `loc_path.startswith("./")`. -/
def startsDotSlash (p : String) : Bool :=
  match p.data with
  | '.' :: '/' :: _ => true
  | _ => false

/-- `loc_path.startswith("../")`. -/
def startsDotDotSlash (p : String) : Bool :=
  match p.data with
  | '.' :: '.' :: '/' :: _ => true
  | _ => false

/-- Python string slicing `s[n:]`. -/
def strDrop (s : String) (n : ℕ) : String := String.mk (s.data.drop n)

/-- `s.replace("\\", "/")` (single-character pattern). -/
def backslashToSlash (s : String) : String :=
  String.mk (s.data.map (fun c => if c = '\\' then '/' else c))

/-- CPython `posixpath.normpath`. -/
def normpathPosix (p : String) : String :=
  if p = "" then "." else
  let ini : ℕ :=
    match p.data with
    | '/' :: '/' :: '/' :: _ => 1
    | '/' :: '/' :: _ => 2
    | '/' :: _ => 1
    | _ => 0
  let comps := pySplit '/' p
  let newComps := comps.foldl (fun acc comp =>
    if comp = "" ∨ comp = "." then acc
    else if comp ≠ ".." ∨ (ini = 0 ∧ acc = []) ∨ acc.getLast? = some ".." then
      acc ++ [comp]
    else acc.dropLast) []
  let path := String.mk (List.replicate ini '/') ++
    String.intercalate "/" newComps
  if path = "" then "." else path

/-- `PathParser.format_path` on posix: normalize, then map backslashes
to slashes. -/
def format_path (p : String) : String := backslashToSlash (normpathPosix p)

/-- `os.path.dirname` (posix): everything up to the last slash, with
trailing slashes stripped unless the head is all slashes. -/
def pyDirname (p : String) : String :=
  let i : ℕ :=
    match lastIdxAux p.data 0 none with
    | some j => j + 1
    | none => 0
  let head := p.data.take i
  if head ≠ [] ∧ head.any (fun ch => ch ≠ '/') then
    String.mk ((head.reverse.dropWhile (fun ch => ch = '/')).reverse)
  else String.mk head
where lastIdxAux : List Char → ℕ → Option ℕ → Option ℕ
  | [], _, acc => acc
  | x :: r, i, acc => lastIdxAux r (i + 1) (if x = '/' then some i else acc)

/-- `os.path.join` (posix, two arguments). -/
def pyJoin (a b : String) : String :=
  if pyIsAbs b then b
  else if a = "" ∨ a.data.getLast? = some '/' then a ++ b
  else a ++ "/" ++ b

/-- `PathParser.__call__` (posix): absolute locations are normalized;
`./x` joins onto the current path; `../x` and bare `x` both join onto
the dirname of the current path. -/
def pathParse (cur loc : String) : String :=
  if pyIsAbs loc then format_path loc
  else if startsDotSlash loc then pyJoin cur (format_path (strDrop loc 2))
  else if startsDotDotSlash loc then
    pyJoin (pyDirname cur) (format_path (strDrop loc 3))
  else pyJoin (pyDirname cur) (format_path loc)

/-- C8 counterexample: for current path `/Doc_0/Document.xml` and
location `../Res/font.ttf` the resolver yields `/Doc_0/Res/font.ttf`
(the join is onto `dirname(cur_path)`, not onto its parent), not the
claimed `/Res/font.ttf`. -/
theorem claim_C8_counterexample :
    pathParse "/Doc_0/Document.xml" "../Res/font.ttf" = "/Doc_0/Res/font.ttf" ∧
    ("/Doc_0/Res/font.ttf" : String) ≠ "/Res/font.ttf" := by
  refine ⟨by decide, by decide⟩

/-- C8 (amended): for current path `/Doc_0/Document.xml`, both the
location `../Res/font.ttf` and the bare location `Res/font.ttf` resolve
to `/Doc_0/Res/font.ttf` (the join is onto `dirname(cur_path)`); in
general, for every current path, a bare relative location resolves the
same as the location prefixed with `../`. -/
theorem claim_C8 :
    pathParse "/Doc_0/Document.xml" "../Res/font.ttf" = "/Doc_0/Res/font.ttf" ∧
    pathParse "/Doc_0/Document.xml" "Res/font.ttf" = "/Doc_0/Res/font.ttf" ∧
    (∀ cur loc, pyIsAbs loc = false → startsDotSlash loc = false →
      startsDotDotSlash loc = false →
      pathParse cur ("../" ++ loc) = pathParse cur loc) := by
  refine ⟨by decide, by decide, ?_⟩
  intro cur loc h1 h2 h3
  obtain ⟨cs⟩ := loc
  have hL : pathParse cur ("../" ++ ⟨cs⟩) =
      pyJoin (pyDirname cur) (format_path ⟨cs⟩) := rfl
  have hR : pathParse cur ⟨cs⟩ =
      pyJoin (pyDirname cur) (format_path ⟨cs⟩) := by
    rw [pathParse]
    simp [h1, h2, h3]
  rw [hL, hR]

/-- Witness for C8's general clause at a concrete bare location. -/
theorem claim_C8_witness :
    pyIsAbs "Res/font.ttf" = false ∧
    startsDotSlash "Res/font.ttf" = false ∧
    startsDotDotSlash "Res/font.ttf" = false ∧
    pathParse "/Doc_0/Document.xml" ("../" ++ "Res/font.ttf") =
      pathParse "/Doc_0/Document.xml" "Res/font.ttf" :=
  ⟨by decide, by decide, by decide,
    claim_C8.2.2 "/Doc_0/Document.xml" "Res/font.ttf"
      (by decide) (by decide) (by decide)⟩
